import Mathlib

/-!
Verification of the DNS proxy engine of mDNSResponder (`mDNSCore/dnsproxy.c`)
against its natural-language specification.

The development is a shallow embedding of the engine, translated from the C
source compiled in its Apple configuration, i.e. with
`MDNSRESPONDER_SUPPORTS(APPLE, DNS_PROXY_DNS64)` enabled (the specification
describes the DNS64 pipeline and the five-argument `DNSProxyInit`, so that is
the configuration being specified).  Machine integers are modelled as `Nat` /
`Int`, with an explicit `% 2 ^ 32` where C unsigned wrap-around matters.
Functions of the repository that are not part of `dnsproxy.c` (the wire codec
in `DNSCommon.c`, `mDNS_SetupQuestion`, the cache index, and the Apple
`nw_nat64` library) are modelled from the specification; each such definition
carries a doc comment saying so.
-/

namespace DNSProxy

/-! ## DNS header constants (mDNSEmbeddedAPI.h) -/

/-- QR bit of flags byte 0: response. -/
def kDNSFlag0_QR_Response : Nat := 0x80

/-- QR bit value of a query. -/
def kDNSFlag0_QR_Query : Nat := 0x00

/-- Combined QR and opcode mask of flags byte 0. -/
def kDNSFlag0_QROP_Mask : Nat := 0xF8

/-- Standard-query opcode value. -/
def kDNSFlag0_OP_StdQuery : Nat := 0x00

/-- Truncation bit of flags byte 0. -/
def kDNSFlag0_TC : Nat := 0x02

/-- Recursion-desired bit of flags byte 0. -/
def kDNSFlag0_RD : Nat := 0x01

/-- Checking-disabled bit of flags byte 1. -/
def kDNSFlag1_CD : Nat := 0x10

/-- rcode FormErr. -/
def kDNSFlag1_RC_FormErr : Nat := 0x01

/-- rcode ServFail. -/
def kDNSFlag1_RC_ServFail : Nat := 0x02

/-- rcode NXDomain. -/
def kDNSFlag1_RC_NXDomain : Nat := 0x03

/-- rcode NotImpl. -/
def kDNSFlag1_RC_NotImpl : Nat := 0x04

/-- DNS record type A. -/
def kDNSType_A : Nat := 1

/-- DNS record type CNAME. -/
def kDNSType_CNAME : Nat := 5

/-- DNS record type PTR. -/
def kDNSType_PTR : Nat := 12

/-- DNS record type OPT (EDNS0). -/
def kDNSType_OPT : Nat := 41

/-- DNS record type AAAA. -/
def kDNSType_AAAA : Nat := 28

/-- DNS class IN. -/
def kDNSClass_IN : Nat := 1

/-- `AbsoluteMaxDNSMessageData` from mDNSEmbeddedAPI.h. -/
def AbsoluteMaxDNSMessageData : Nat := 8940

/-- `MIN_DNS_MESSAGE_SIZE` from dnsproxy.c line 100. -/
def MIN_DNS_MESSAGE_SIZE : Nat := 512

/-- `MaxIp` (size of the input-interface array) from mDNSEmbeddedAPI.h. -/
def MaxIp : Nat := 5

/-- `sizeof(DNSMessageHeader)`: 12 bytes on the wire. -/
def DNSMessageHeaderSize : Nat := 12

/-! ## Basic wire data -/

/-- The second 16-bit word of a DNS message header (`mDNSOpaque16`), kept as
its two bytes `b[0]`, `b[1]` exactly as the C code manipulates it. -/
structure Flags where
  b0 : Nat
  b1 : Nat
deriving Repr, DecidableEq

/-- The all-zero flags word (`zeroID`). -/
def zeroFlags : Flags := ⟨0, 0⟩

/-- A domain name, modelled as its sequence of wire bytes. -/
def Name := List Nat
deriving DecidableEq, Repr

/-- ASCII case folding of one byte, as done by DNS name comparison. -/
def caseFold (b : Nat) : Nat := if 65 ≤ b ∧ b ≤ 90 then b + 32 else b

/-- Modelled from the spec: `SameDomainName` (DNSCommon.c, not under `src/`):
"name comparison is case-insensitive per DNS rules" (§4.B). -/
def sameDomainName (a b : Name) : Bool :=
  List.map caseFold a == List.map caseFold b

/-! ## Process-wide configuration

The C globals `m->dp_ipintf[MaxIp]`, `m->dp_opintf`, `gDNS64Enabled`,
`gDNS64ForceAAAASynthesis` and `gDNS64Prefix` are gathered into one record.
`gDNS64Prefix` is an `nw_nat64_prefix_t`: a length code plus a 12-byte data
buffer; the length code is modelled by the prefix bit length it denotes and
the buffer by a 12-element byte list. -/
structure ProxyConfig where
  dp_ipintf : List Nat
  dp_opintf : Nat
  dns64Enabled : Bool
  dns64Force : Bool
  dns64PrefixLen : Nat
  dns64PrefixData : List Nat
deriving Repr, DecidableEq

/-- `CheckDNSProxyIpIntf` (dnsproxy.c lines 618-641): admit an interface index
iff it is positive and appears in the stored input interface list. -/
def checkDNSProxyIpIntf (cfg : ProxyConfig) (ifIndex : Nat) : Bool :=
  0 < ifIndex && (List.range MaxIp).any (fun i => ifIndex == cfg.dp_ipintf.getD i 0)

/-- `mDNSPlatformMemZero` of `gDNS64Prefix.data` followed by
`mDNSPlatformMemCopy(gDNS64Prefix.data, IPv6Prefix, copyLen)`
(dnsproxy.c lines 869, 908): the stored 12-byte buffer holds the first
`copyLen` caller bytes and zero elsewhere. -/
def memCopyFromZeroed (buf : List Nat) (copyLen : Nat) : List Nat :=
  (List.range 12).map (fun i => if i < copyLen then buf.getD i 0 else 0)

/-- `DNSProxyInit` (dnsproxy.c lines 849-924), DNS64 build.  `ipv6Bytes` is
`none` when the `IPv6Prefix` pointer is NULL.  The `switch` on
`IPv6PrefixBitLen` maps the six valid lengths to their copy lengths and any
other value to `copyLen = 0`, which disables DNS64 and clears the force flag. -/
def dnsProxyInit (cfg : ProxyConfig) (ipIfArr : List Nat) (opIf : Nat)
    (ipv6Bytes : Option (List Nat)) (ipv6PrefixBitLen : Int) (forceAAAASynthesis : Bool) :
    ProxyConfig :=
  let cfg1 := { cfg with
    dp_ipintf := (List.range MaxIp).map (fun i => ipIfArr.getD i 0),
    dp_opintf := opIf }
  match ipv6Bytes with
  | none => cfg1
  | some buf =>
    let copyLen : Nat :=
      if ipv6PrefixBitLen = 32 then 4
      else if ipv6PrefixBitLen = 40 then 5
      else if ipv6PrefixBitLen = 48 then 6
      else if ipv6PrefixBitLen = 56 then 7
      else if ipv6PrefixBitLen = 64 then 8
      else if ipv6PrefixBitLen = 96 then 12
      else 0
    if 0 < copyLen then
      { cfg1 with
        dns64PrefixLen := ipv6PrefixBitLen.toNat,
        dns64PrefixData := memCopyFromZeroed buf copyLen,
        dns64Force := forceAAAASynthesis,
        dns64Enabled := true }
    else
      { cfg1 with
        dns64PrefixData := memCopyFromZeroed buf 0,
        dns64PrefixLen := cfg.dns64PrefixLen,
        dns64Enabled := false,
        dns64Force := false }

/-- `DNSProxyTerminate` (dnsproxy.c lines 926-941). -/
def dnsProxyTerminate (cfg : ProxyConfig) : ProxyConfig :=
  { cfg with
    dp_ipintf := (List.range MaxIp).map (fun _ => 0),
    dp_opintf := 0,
    dns64Enabled := false }

/-- The set of NAT64 prefix bit lengths accepted by `DNSProxyInit`. -/
def validPrefixBitLens : List Int := [32, 40, 48, 56, 64, 96]

/-! ## Client records (`struct DNSProxyClient_struct`, dnsproxy.c lines 78-98) -/

/-- `DNSProxyDNS64State` (dnsproxy.c lines 67-75). -/
inductive DNS64State where
  | initial
  | aaaaSynthesis
  | ptrSynthesisTrying
  | ptrSynthesisSuccess
  | ptrSynthesisNXDomain
deriving Repr, DecidableEq, BEq

/-- The fields of the resolver-owned live question `pc->q` that the engine
reads or writes: qname / qtype / qclass and the resolver's `responseFlags`. -/
structure LiveQuestion where
  qname : Name
  qtype : Nat
  qclass : Nat
  responseFlags : Flags
deriving Repr, DecidableEq

/-- One `DNSProxyClient` record.  Pointers are modelled by plain data:
`uid` stands for the record's identity (its address), `socket` for the
return-socket handle, `context` for whether a platform context is attached,
and `optPresent` for `pc->optRR != NULL`.  `questionSize` is the wire size of
the question section `putQuestion` emits for this client, and
`synthCNAMESize` the wire size of the DNS64 synthetic CNAME record
(sizes produced by the DNSCommon.c codec, which is not under `src/`). -/
structure Client where
  uid : Nat
  addr : Nat
  port : Nat
  msgid : Nat
  interfaceID : Nat
  socket : Nat
  tcp : Bool
  requestFlags : Flags
  optPresent : Bool
  optLen : Nat
  rcvBufSize : Nat
  context : Bool
  qname : Name
  q : LiveQuestion
  qtype : Nat
  dns64state : DNS64State
  questionSize : Nat
  synthCNAMESize : Nat
deriving Repr, DecidableEq

/-! ## TCP teardown (`ProxyTCPCallback`, dnsproxy.c lines 815-846) -/

/-- The search loop of `ProxyTCPCallback` (lines 824-838): find the first
client whose `socket` equals the closing socket, returning the clients linked
before it, the match, and the clients linked after it. -/
def splitAtSocket (sock : Nat) : List Client → Option (List Client × Client × List Client)
  | [] => none
  | c :: rest =>
    if c.socket == sock then some ([], c, rest)
    else
      match splitAtSocket sock rest with
      | none => none
      | some (pre, m, post) => some (c :: pre, m, post)

/-- The teardown branch of `ProxyTCPCallback` (lines 822-844).  After the
search loop, `ppc` addresses the link that points to the match and `prevpc`
the link one position earlier (they coincide only when the match is the list
head).  Line 839, `*prevpc = (*ppc)->next`, therefore rewrites the link into
the match's *predecessor*: when the match is not the head, the predecessor
(the last element of `pre`) drops out of the registry together with the
match.  Only the match itself is freed (`FreeDNSProxyClient(*ppc)`).
Returns the new registry and the freed client, if one was found. -/
def proxyTCPTeardown (reg : List Client) (sock : Nat) : List Client × Option Client :=
  match splitAtSocket sock reg with
  | none => (reg, none)
  | some (pre, m, post) => (pre.dropLast ++ post, some m)

/-! ## Release ordering on client removal -/

/-- The observable resource actions when a client record is taken down. -/
inductive ReleaseEvent where
  | stopQuery
  | unlink
  | disposeContext
  | freeOptBuffer
  | freeClientRecord
deriving Repr, DecidableEq, BEq

/-- `FreeDNSProxyClient` (dnsproxy.c lines 103-108): free the opt buffer if
one is attached, then free the record itself. -/
def freeDNSProxyClientEvents (hasOpt : Bool) : List ReleaseEvent :=
  (if hasOpt then [.freeOptBuffer] else []) ++ [.freeClientRecord]

/-- The paths that remove a client record from the registry. -/
inductive TeardownPath where
  | clientCallbackDone
  | tcpTeardown
deriving Repr, DecidableEq

/-- Resource actions of a registry removal, in program order.
`clientCallbackDone` is the `done:` path of `ProxyClientCallback`
(lines 553-565): `mDNS_StopQuery`, unlink, `mDNSPlatformDisposeProxyContext
(pc->context)` (a release only when a context is attached), then
`FreeDNSProxyClient`.  `tcpTeardown` is the teardown branch of
`ProxyTCPCallback` (lines 839-843): unlink, `mDNSPlatformDisposeProxyContext
(socket)`, then `FreeDNSProxyClient`; no question stop is performed there. -/
def removalEvents (path : TeardownPath) (hasOpt hasCtx : Bool) : List ReleaseEvent :=
  match path with
  | .clientCallbackDone =>
    [.stopQuery, .unlink] ++ (if hasCtx then [.disposeContext] else [])
      ++ freeDNSProxyClientEvents hasOpt
  | .tcpTeardown =>
    [.unlink, .disposeContext] ++ freeDNSProxyClientEvents hasOpt

/-- A convenient concrete client for counterexamples and witnesses. -/
def mkClient (uid sock : Nat) : Client :=
  { uid := uid, addr := 10, port := 5353, msgid := 7, interfaceID := 3,
    socket := sock, tcp := true, requestFlags := ⟨1, 0⟩, optPresent := false,
    optLen := 0, rcvBufSize := 0, context := true, qname := [3, 97, 98, 99, 0],
    q := ⟨[3, 97, 98, 99, 0], 1, 1, ⟨0, 0⟩⟩, qtype := 1, dns64state := .initial,
    questionSize := 9, synthCNAMESize := 0 }

/-! ## Request ingress (`ProxyCallbackCommon`, dnsproxy.c lines 643-806) -/

/-- The outcome of `getQuestion` on the single question of a request
(DNSCommon.c, not under `src/`; modelled from the spec §4.A: question decode
yields name, qtype, qclass or a parse error).  `wireSize` is the size of the
question section as re-emitted by `putQuestion`. -/
structure Question where
  qname : Name
  qtype : Nat
  qclass : Nat
  wireSize : Nat
deriving Repr, DecidableEq

/-- The OPT RR located by `LocateOptRR` / `skipResourceRecord` (DNSCommon.c,
not under `src/`): its raw bytes, its computed length `optLen`, and whether
`ptr + length <= limit` holds (the bounds test of `ParseEDNS0` line 112). -/
structure OptData where
  bytes : List Nat
  len : Nat
  inBounds : Bool
deriving Repr, DecidableEq

/-- `ParseEDNS0` (dnsproxy.c lines 110-135): reject when out of bounds;
skip the root label; require rrtype = OPT read big-endian from bytes 1-2;
on success return the rrclass (bytes 3-4), which OPT uses for the
requester's UDP payload size and which is stored into `pc->rcvBufSize`. -/
def parseEDNS0 (o : OptData) : Option Nat :=
  if !o.inBounds then none
  else
    let rrtype := o.bytes.getD 1 0 * 256 + o.bytes.getD 2 0
    if rrtype != kDNSType_OPT then none
    else some (o.bytes.getD 3 0 * 256 + o.bytes.getD 4 0)

/-- One received message together with the platform inputs of
`ProxyCallbackCommon` and the outcomes of the external codec calls on it.
The section counts stand for the values decoded in network byte order at
lines 673-677; `question` is the `getQuestion` outcome, `opt` the located
OPT RR if any.  `allocClientOK` / `allocOptOK` are the outcomes of the two
platform allocations, `uid` the identity of the record a successful
allocation returns, and `ptrMapsTo` the in-addr.arpa name produced by
`GetReverseIPv6Addr` / `nw_nat64_extract_v4` / `MakeDomainNameFromDNSNameString`
(lines 783-788, external library and codec) when the qname is a reverse-IPv6
name under the NAT64 prefix. -/
structure Request where
  srcaddr : Nat
  srcport : Nat
  msgId : Nat
  flags : Flags
  numQuestions : Nat
  numAnswers : Nat
  numAuthorities : Nat
  numAdditionals : Nat
  msgLen : Nat
  question : Option Question
  opt : Option OptData
  socket : Nat
  tcp : Bool
  context : Bool
  interfaceID : Nat
  allocClientOK : Bool
  allocOptOK : Bool
  uid : Nat
  synthCNAMESize : Nat
  ptrMapsTo : Option Name
deriving Repr, DecidableEq

/-- Result of `ProxyCallbackCommon` on one message. -/
inductive IngressOut where
  | ifaceReject
  | tooShort
  | errorReply (rcode : Nat)
  | duplicateDrop
  | allocFail
  | started (pc : Client)
deriving Repr, DecidableEq

/-- The duplicate-key comparison of `IsDuplicateClient` (dnsproxy.c lines
604-609): source address, source port, message id, snapshot qtype, live
question's qclass, and case-insensitive snapshot qname. -/
def requestKeyMatches (pc : Client) (addr port id : Nat) (q : Question) : Bool :=
  pc.addr == addr && pc.port == port && pc.msgid == id
    && pc.qtype == q.qtype && pc.q.qclass == q.qclass
    && sameDomainName pc.qname q.qname

/-- `IsDuplicateClient` (dnsproxy.c lines 597-616): linear scan of the
registry for a client matching the request's 6-tuple. -/
def isDuplicateClient (reg : List Client) (addr port id : Nat) (q : Question) : Bool :=
  reg.any (fun pc => requestKeyMatches pc addr port id q)

/-- Lines 769-798: `mDNS_SetupQuestion` followed by the policy bits, the
`pc->qtype` snapshot, and the DNS64 ingress transforms.
Modelled from the spec: `mDNS_SetupQuestion` (mDNS.c, not under `src/`)
constructs the live question from the parsed question's qname and qtype;
per §4.D step 10 and §4.B the live question carries the request's question
for duplicate comparison, so its qclass is the request's qclass, and
`responseFlags` is cleared (line 774). -/
def setupAndTransform (cfg : ProxyConfig) (r : Request) (q : Question) (pc : Client) : Client :=
  let pc := { pc with
    q := ⟨q.qname, q.qtype, q.qclass, zeroFlags⟩,
    qtype := q.qtype }
  if cfg.dns64Enabled then
    if pc.qtype == kDNSType_PTR then
      match r.ptrMapsTo with
      | some rewritten =>
        { pc with q := { pc.q with qname := rewritten }, dns64state := .ptrSynthesisTrying }
      | none => pc
    else if pc.qtype == kDNSType_AAAA && cfg.dns64Force then
      { pc with dns64state := .aaaaSynthesis, q := { pc.q with qtype := kDNSType_A } }
    else pc
  else pc

/-- The field initialization of a freshly allocated (zeroed) client record,
dnsproxy.c lines 739-747. -/
def ingressClientBase (r : Request) (q : Question) : Client :=
  { uid := r.uid, addr := r.srcaddr, port := r.srcport, msgid := r.msgId,
    interfaceID := r.interfaceID, socket := r.socket, tcp := r.tcp,
    requestFlags := r.flags, optPresent := false, optLen := 0,
    rcvBufSize := 0, context := r.context, qname := q.qname,
    q := ⟨[], 0, 0, zeroFlags⟩, qtype := 0, dns64state := .initial,
    questionSize := q.wireSize, synthCNAMESize := r.synthCNAMESize }

/-- `ingressClientBase` after a successful EDNS0 parse and opt buffer copy
(dnsproxy.c lines 756-765; `rcvBufSize` was stored by `ParseEDNS0`). -/
def ingressClientWithOpt (r : Request) (q : Question) (o : OptData) (rb : Nat) : Client :=
  { ingressClientBase r q with optPresent := true, optLen := o.len, rcvBufSize := rb }

/-- `ProxyCallbackCommon` (dnsproxy.c lines 643-806): interface filter,
header-length check, opcode check (NotImpl reply), strict section-count
check and question parse (FormErr replies), OPT location with
liberal-ignore on parse failure, duplicate suppression, client allocation
and field initialization, opt buffer copy, question setup with DNS64
ingress transforms, and append to the registry.  Returns the outcome and
the new registry. -/
def proxyCallbackCommon (cfg : ProxyConfig) (reg : List Client) (r : Request) :
    IngressOut × List Client :=
  if !checkDNSProxyIpIntf cfg r.interfaceID then (.ifaceReject, reg)
  else if r.msgLen < DNSMessageHeaderSize then (.tooShort, reg)
  else if (r.flags.b0 &&& kDNSFlag0_QROP_Mask) != kDNSFlag0_QR_Query then
    (.errorReply kDNSFlag1_RC_NotImpl, reg)
  else if r.numQuestions != 1 || r.numAnswers != 0 || r.numAuthorities != 0 then
    (.errorReply kDNSFlag1_RC_FormErr, reg)
  else
    match r.question with
    | none => (.errorReply kDNSFlag1_RC_FormErr, reg)
    | some q =>
      if isDuplicateClient reg r.srcaddr r.srcport r.msgId q then (.duplicateDrop, reg)
      else if !r.allocClientOK then (.allocFail, reg)
      else
        match r.opt with
        | some o =>
          match parseEDNS0 o with
          | some rb =>
            if !r.allocOptOK then (.allocFail, reg)
            else
              (.started (setupAndTransform cfg r q (ingressClientWithOpt r q o rb)),
                reg ++ [setupAndTransform cfg r q (ingressClientWithOpt r q o rb)])
          | none =>
            (.started (setupAndTransform cfg r q (ingressClientBase r q)),
              reg ++ [setupAndTransform cfg r q (ingressClientBase r q)])
        | none =>
          (.started (setupAndTransform cfg r q (ingressClientBase r q)),
            reg ++ [setupAndTransform cfg r q (ingressClientBase r q)])

/-- Result of `ProxyTCPCallback`: either the teardown branch ran (carrying
the freed client, if found) or the message was forwarded to
`ProxyCallbackCommon`. -/
inductive TCPCbOut where
  | teardown (freed : Option Client)
  | forwarded (out : IngressOut)
deriving Repr, DecidableEq

/-- `ProxyTCPCallback` (dnsproxy.c lines 815-846): a zero-length message
(peer closed the connection) or an interface-filter rejection takes the
teardown branch; otherwise the message is handed to `ProxyCallbackCommon`
with `tcp = true`. -/
def proxyTCPCallback (cfg : ProxyConfig) (reg : List Client) (r : Request) :
    TCPCbOut × List Client :=
  if r.msgLen == 0 || !checkDNSProxyIpIntf cfg r.interfaceID then
    let out := proxyTCPTeardown reg r.socket
    (.teardown out.2, out.1)
  else
    let out := proxyCallbackCommon cfg reg { r with tcp := true }
    (.forwarded out.1, out.2)

/-- `ProxyUDPCallback` (dnsproxy.c lines 808-813). -/
def proxyUDPCallback (cfg : ProxyConfig) (reg : List Client) (r : Request) :
    IngressOut × List Client :=
  proxyCallbackCommon cfg reg { r with tcp := false }

/-! ## Resolver cache (external collaborator, §6)

The cache group index is resolver-owned (`CacheGroupForName`,
`SameNameCacheRecordAnswersQuestion` live outside `src/`): a cache is an
association list from owner names to their records, and each record carries
the verdict of `SameNameCacheRecordAnswersQuestion` for the client's live
question as the field `answersQuestion`. -/

/-- The fields of a side-pointed SOA cache record (`cr->soa`) that the
engine reads: its wire size, its original TTL, and — for stating claims
about TTL adjustment — the time it was received. -/
structure SOARec where
  size : Nat
  rroriginalttl : Nat
  timeRcvd : Int
deriving Repr, DecidableEq

/-- One resolver cache record, with the fields `AddResourceRecords` reads.
`negative` is `RecordType == kDNSRecordTypePacketNegative`; `size` the wire
size the codec needs to emit the record; `answersQuestion` the verdict of
the external `SameNameCacheRecordAnswersQuestion` for the client's live
question; `cnameTarget` the rdata name when the record is a CNAME; and
`synthOK` whether the external `nw_nat64_synthesize_v6` succeeds on the
record's IPv4 rdata. -/
structure CacheRecord where
  negative : Bool
  rrtype : Nat
  rrclass : Nat
  responseFlags : Flags
  rroriginalttl : Nat
  timeRcvd : Int
  size : Nat
  soa : Option SOARec
  answersQuestion : Bool
  cnameTarget : Name
  synthOK : Bool
deriving Repr, DecidableEq

/-- The resolver cache index: owner name to cache group. -/
def Cache := List (Name × List CacheRecord)

/-- Modelled from the spec: `CacheGroupForName` (external cache index,
§6 `lookup(nameHash, name) → cache group | none`), with DNS-rule name
comparison. -/
def cacheLookup (cache : Cache) (nm : Name) : Option (List CacheRecord) :=
  match cache with
  | [] => none
  | (gname, recs) :: rest => if sameDomainName gname nm then some recs else cacheLookup rest nm

/-! ## Response assembly (`AddResourceRecords`, dnsproxy.c lines 208-434) -/

/-- `SetResponseFlags` (dnsproxy.c lines 191-206): start from the cache
record's responseFlags; copy the request's RD bit into byte 0 and the
request's CD bit into byte 1 (`&= ~kDNSFlag0_RD` on a byte is `&&& 0xFE`,
`&= ~kDNSFlag1_CD` is `&&& 0xEF`). -/
def setResponseFlags (pc : Client) (responseFlags : Flags) : Flags :=
  ⟨if pc.requestFlags.b0 &&& kDNSFlag0_RD != 0
      then responseFlags.b0 ||| kDNSFlag0_RD
      else responseFlags.b0 &&& 0xFE,
    if pc.requestFlags.b1 &&& kDNSFlag1_CD != 0
      then responseFlags.b1 ||| kDNSFlag1_CD
      else responseFlags.b1 &&& 0xEF⟩

/-- What one successful emit appended to the outgoing message. -/
inductive EmitKind where
  | question
  | synthCNAME
  | answer (cr : CacheRecord)
  | soaRec (soa : SOARec)
  | opt
deriving Repr, DecidableEq

/-- One emitted element: its kind, the TTL written for it, and its size. -/
structure Emit where
  kind : EmitKind
  ttl : Int
  size : Nat
deriving Repr, DecidableEq

/-- The builder state of `m->omsg` during assembly: header flags, section
counts, the emitted elements in order, the data cursor `used`
(`ptr - m->omsg.data`), and the record-boundary cursor `safe` (the C local
`orig - m->omsg.data`). -/
structure AsmState where
  flags : Flags
  numQuestions : Nat
  numAnswers : Nat
  numAuthorities : Nat
  numAdditionals : Nat
  items : List Emit
  used : Nat
  safe : Nat
deriving Repr, DecidableEq

/-- The builder state right after `InitializeDNSMessage`. -/
def initAsmState : AsmState := ⟨zeroFlags, 0, 0, 0, 0, [], 0, 0⟩

/-- Which section count an emit bumps. -/
def bumpCount (st : AsmState) (k : EmitKind) : AsmState :=
  match k with
  | .question => { st with numQuestions := st.numQuestions + 1 }
  | .synthCNAME => { st with numAnswers := st.numAnswers + 1 }
  | .answer _ => { st with numAnswers := st.numAnswers + 1 }
  | .soaRec _ => { st with numAuthorities := st.numAuthorities + 1 }
  | .opt => { st with numAdditionals := st.numAdditionals + 1 }

/-- Whether the source advances `orig` after this emit: it does after each
answer record (line 367) and the SOA (line 407), and not after the
question, the synthetic CNAME, or the OPT (line 430 is commented out). -/
def updatesSafe (k : EmitKind) : Bool :=
  match k with
  | .answer _ => true
  | .soaRec _ => true
  | _ => false

/-- Modelled from the spec: the limit discipline of
`PutResourceRecordTTLWithLimit` (DNSCommon.c, not under `src/`; §4.A "a
limit cursor — refuses to write past a caller-provided upper bound", "the
codec never partially mutates a record it failed to emit; the caller's
cursor remains at the pre-call position") and of `AddEDNS0Option`
(dnsproxy.c line 162).  `lim = none` is the analysis-only unbounded run. -/
def emitPush (st : AsmState) (k : EmitKind) (ttl : Int) (size : Nat) : AsmState :=
  { bumpCount st k with
    items := st.items ++ [⟨k, ttl, size⟩],
    used := st.used + size,
    safe := if updatesSafe k then st.used + size else st.safe }

/-- The emit-with-limit step: succeed (appending via `emitPush`) iff the
write stays within the limit; on failure nothing is written.  `lim = none`
is the analysis-only unbounded run. -/
def putWithLimit : Option Nat → AsmState → EmitKind → Int → Nat → Option AsmState
  | some l, st, k, ttl, size =>
    if st.used + size ≤ l then some (emitPush st k ttl size) else none
  | none, st, k, ttl, size => some (emitPush st k ttl size)

/-- Modelled from the spec: `putQuestion` (DNSCommon.c, not under `src/`):
emit the question section and bump the question count; NULL when it does
not fit.  Both call sites in dnsproxy.c (lines 288, 486, 533) pass
`m->omsg.data + AbsoluteMaxDNSMessageData` as its limit — not the reply
limit. -/
def putQuestionM (st : AsmState) (qsize : Nat) : Option AsmState :=
  putWithLimit (some AbsoluteMaxDNSMessageData) st .question 0 qsize

/-- Line 359: `ttl = cr->resrec.rroriginalttl - (now - cr->TimeRcvd) /
mDNSPlatformOneSecond`.  The division is C `mDNSs32` division (truncating),
and the subtraction against the `mDNSu32` TTL wraps modulo `2 ^ 32`; the
value written on the wire is that 32-bit word. -/
def adjTTL (now tps : Int) (cr : CacheRecord) : Int :=
  ((cr.rroriginalttl : Int) - (now - cr.timeRcvd).tdiv tps).emod (2 ^ 32)

/-- Lines 232-248: the emit limit.  UDP without EDNS0: 512 bytes of
payload; UDP with EDNS0: `rcvBufSize` clamped to
`AbsoluteMaxDNSMessageData`; TCP: the absolute maximum. -/
def computeLimit (pc : Client) : Nat :=
  if !pc.tcp then
    if pc.rcvBufSize == 0 then MIN_DNS_MESSAGE_SIZE
    else if AbsoluteMaxDNSMessageData < pc.rcvBufSize then AbsoluteMaxDNSMessageData
    else pc.rcvBufSize
  else AbsoluteMaxDNSMessageData

/-- Lines 251-265: the name whose cache group is scanned first — the live
question's qname after DNS64 PTR-synthesis success, the snapshot
otherwise. -/
def workingName (pc : Client) : Name :=
  if pc.dns64state == DNS64State.ptrSynthesisSuccess then pc.q.qname else pc.qname

/-- Outcome of the first-match block. -/
inductive InitOut where
  | ok (st : AsmState)
  | qFail
  | overflowAt (st : AsmState)
deriving Repr, DecidableEq

/-- The first-match block (lines 281-319): `InitializeDNSMessage` with the
client's message id and the response flags derived from this cache record,
`putQuestion` (whose limit is the absolute maximum, not the reply limit),
and under DNS64 PTR-synthesis success the synthetic CNAME (TTL 0) emitted
under the reply limit.  On the CNAME overflow, `*prevptr = orig` with
`orig` still at the data start. -/
def firstMatchInit (lim : Option Nat) (pc : Client) (cr : CacheRecord) : InitOut :=
  match putQuestionM { initAsmState with flags := setResponseFlags pc cr.responseFlags }
      pc.questionSize with
  | none => .qFail
  | some st1 =>
    if pc.dns64state == DNS64State.ptrSynthesisSuccess then
      match putWithLimit lim st1 .synthCNAME 0 pc.synthCNAMESize with
      | none => .overflowAt st1
      | some st2 => .ok st2
    else .ok st1

/-- The per-record emission (lines 325-368): a negative cache marker adds
nothing; under DNS64 AAAA synthesis an A record is emitted as the
synthesized AAAA (rdlength 16 instead of 4, so 12 bytes larger) when
`nw_nat64_synthesize_v6` succeeds and is skipped (`continue`) when it
fails; every other record is emitted as-is.  The TTL written is the
adjusted TTL of line 359.  `none` means the put overflowed the limit. -/
def recordEmit (lim : Option Nat) (pc : Client) (now tps : Int) (st : AsmState)
    (cr : CacheRecord) : Option AsmState :=
  if cr.negative then some st
  else if pc.dns64state == DNS64State.aaaaSynthesis && cr.rrtype == kDNSType_A then
    if cr.synthOK then putWithLimit lim st (.answer cr) (adjTTL now tps cr) (cr.size + 12)
    else some st
  else putWithLimit lim st (.answer cr) (adjTTL now tps cr) cr.size

/-- Outcome of one cache-group scan. -/
inductive ScanOut where
  | qFail
  | overflowAt (st : AsmState)
  | done (st : AsmState) (first : Bool) (soa : Option SOARec) (cname : Option CacheRecord)
deriving Repr, DecidableEq

/-- The cache-group scan (lines 277-384): for each record answering the
question, run the first-match block once, emit the record, remember the
last SOA side pointer (line 369-373) and the last CNAME to chase
(lines 378-382, only when the query's qtype is not CNAME). -/
def scanRecords (lim : Option Nat) (pc : Client) (now tps : Int) :
    List CacheRecord → AsmState → Bool → Option SOARec → Option CacheRecord → ScanOut
  | [], st, first, soa, cname => .done st first soa cname
  | cr :: rest, st, first, soa, cname =>
    if cr.answersQuestion then
      if first then
        match firstMatchInit lim pc cr with
        | .qFail => .qFail
        | .overflowAt stf => .overflowAt stf
        | .ok st1 =>
          match recordEmit lim pc now tps st1 cr with
          | none => .overflowAt st1
          | some st2 =>
            scanRecords lim pc now tps rest st2 false
              (if cr.soa.isSome then cr.soa else soa)
              (if pc.q.qtype != cr.rrtype && cr.rrtype == kDNSType_CNAME then some cr else cname)
      else
        match recordEmit lim pc now tps st cr with
        | none => .overflowAt st
        | some st2 =>
          scanRecords lim pc now tps rest st2 false
            (if cr.soa.isSome then cr.soa else soa)
            (if pc.q.qtype != cr.rrtype && cr.rrtype == kDNSType_CNAME then some cr else cname)
    else scanRecords lim pc now tps rest st first soa cname

/-- Outcome of `AddResourceRecords`:  `.noRecord` is
`*error = mStatus_NoSuchRecord` (NULL with NULL `prevptr`), `.qFail` is a
`putQuestion` failure (NULL, NULL `prevptr`, no error), `.overflowAt st` is
NULL with `prevptr` at `st.safe`, and `.diverge` stands for runs of the
unbounded source goto loop that exhaust the fuel. -/
inductive AsmOut where
  | diverge
  | noRecord
  | qFail
  | overflowAt (st : AsmState)
  | ok (st : AsmState)
deriving Repr, DecidableEq

/-- Lines 397-408: emit a captured SOA into the authority section with its
*original* TTL (line 400 passes `soa->resrec.rroriginalttl` unadjusted). -/
def soaEmit (lim : Option Nat) (st : AsmState) (soa : Option SOARec) : Option AsmState :=
  match soa with
  | none => some st
  | some s => putWithLimit lim st (.soaRec s) (s.rroriginalttl : Int) s.size

/-- Lines 415-431 after the chase ends: `!ptr` (no record ever matched)
yields `mStatus_NoSuchRecord`; with EDNS0 advertised, the 11-byte response
OPT is appended under the limit. -/
def finishAsm (lim : Option Nat) (pc : Client) (st : AsmState) (first : Bool) : AsmOut :=
  if first then .noRecord
  else if pc.rcvBufSize != 0 then
    match putWithLimit lim st .opt 0 11 with
    | none => .overflowAt st
    | some st1 => .ok st1
  else .ok st

/-- The `again:` chase loop (lines 267-414): look up the cache group of the
working name (`mStatus_NoSuchRecord` when there is none — even mid-chase),
scan it, emit a captured SOA, and follow a captured CNAME by restarting on
its rdata name.  The source's goto has no bound; `fuel` makes the recursion
well-founded, with `.diverge` for executions that exhaust it. -/
def chaseLoop (lim : Option Nat) (pc : Client) (now tps : Int) (cache : Cache) :
    Nat → Name → AsmState → Bool → AsmOut
  | 0, _, _, _ => .diverge
  | fuel + 1, nm, st, first =>
    match cacheLookup cache nm with
    | none => .noRecord
    | some recs =>
      match scanRecords lim pc now tps recs st first none none with
      | .qFail => .qFail
      | .overflowAt stf => .overflowAt stf
      | .done st1 first1 soa cname =>
        match soaEmit lim st1 soa with
        | none => .overflowAt st1
        | some st2 =>
          match cname with
          | some ccr => chaseLoop lim pc now tps cache fuel ccr.cnameTarget st2 first1
          | none => finishAsm lim pc st2 first1

/-- `AddResourceRecords` (dnsproxy.c lines 208-434). -/
def addResourceRecords (pc : Client) (now tps : Int) (cache : Cache) (fuel : Nat) : AsmOut :=
  chaseLoop (some (computeLimit pc)) pc now tps cache fuel (workingName pc) initAsmState true

/-- The same walk with no emit limit: the size the reply would have were the
buffer unbounded, used to state "the full set of records would exceed the
size bound". -/
def addResourceRecordsUnbounded (pc : Client) (now tps : Int) (cache : Cache) (fuel : Nat) :
    AsmOut :=
  chaseLoop none pc now tps cache fuel (workingName pc) initAsmState true

/-! ## The question callback (`ProxyClientCallback`, dnsproxy.c lines 436-566) -/

/-- The answer record delivered by the resolver to the question callback:
whether it is a negative cache marker, and its rrtype / rrclass. -/
structure AnswerRec where
  negative : Bool
  rrtype : Nat
  rrclass : Nat
deriving Repr, DecidableEq

/-- A reply as handed to `mDNSSendDNSMessage`: header flags, the emitted
elements within the send cursor, and the data-section length. -/
structure SentMsg where
  flags : Flags
  items : List Emit
  payloadLen : Nat
deriving Repr, DecidableEq

/-- Outcome of one `ProxyClientCallback` invocation.  `.sendMsg` and
`.dropNoSend` reach the `done:` path (question stopped, client unlinked and
freed); `.sendMalformed` is the NXDomain-branch corner where `putQuestion`
fails and the send runs with a NULL cursor. -/
inductive CBOut where
  | noAction
  | restartAsA (pc1 : Client)
  | waitForReal
  | sendMsg (msg : SentMsg) (pc1 : Client)
  | dropNoSend (pc1 : Client)
  | sendMalformed (pc1 : Client)
  | diverge
deriving Repr, DecidableEq

/-- The byte prefix of the emitted elements lying within the safe cursor:
what a truncated send actually transmits. -/
def prefixWithin (bound : Nat) : List Emit → List Emit
  | [] => []
  | e :: rest => if e.size ≤ bound then e :: prefixWithin (bound - e.size) rest else []

/-- Line 526. -/
def servFailFlags : Flags :=
  ⟨kDNSFlag0_QR_Response ||| kDNSFlag0_OP_StdQuery, kDNSFlag1_RC_ServFail⟩

/-- Line 484. -/
def nxDomainFlags : Flags :=
  ⟨kDNSFlag0_QR_Response ||| kDNSFlag0_OP_StdQuery, kDNSFlag1_RC_NXDomain⟩

/-- `InitializeDNSMessage` plus `putQuestion`: a reply carrying only the
question section. -/
def questionOnlyMsg (pc : Client) (flags : Flags) : SentMsg :=
  ⟨flags, [⟨.question, 0, pc.questionSize⟩], pc.questionSize⟩

/-- Lines 530-531: ServFail unless the resolver left a non-zero
response-flags word on the question. -/
def noRecordReplyFlags (pc : Client) : Flags :=
  if pc.q.responseFlags != zeroFlags then pc.q.responseFlags else servFailFlags

/-- The RFC 6147 §5.1.6 retry test (lines 452-464). -/
def dns64RestartCond (cfg : ProxyConfig) (pc : Client) (a : AnswerRec) : Bool :=
  cfg.dns64Enabled && pc.dns64state == DNS64State.initial
    && a.negative && pc.q.qtype == kDNSType_AAAA
    && a.rrtype == kDNSType_AAAA && a.rrclass == kDNSClass_IN

/-- The PTR-synthesis transitions (lines 466-480). -/
def dns64PtrTransition (cfg : ProxyConfig) (pc : Client) (a : AnswerRec) : Client :=
  if cfg.dns64Enabled && pc.dns64state == DNS64State.ptrSynthesisTrying then
    if !a.negative && pc.q.qtype == kDNSType_PTR
        && a.rrtype == kDNSType_PTR && a.rrclass == kDNSClass_IN then
      { pc with dns64state := DNS64State.ptrSynthesisSuccess }
    else { pc with dns64state := DNS64State.ptrSynthesisNXDomain }
  else pc

/-- `ProxyClientCallback` (dnsproxy.c lines 436-566): ignore non-add
events; run the DNS64 transitions (the AAAA retry stops the question,
switches its qtype to A and restarts); answer a PTR-synthesis NXDomain
verdict with a question-only NXDomain reply; gate out positive answers
whose rrtype differs from the live qtype; otherwise assemble from the
cache and send — setting TC and cutting at the safe cursor on UDP
overflow, sending the safe prefix without TC on TCP overflow, and falling
back to a question-only reply with `noRecordReplyFlags` when the assembler
found nothing. -/
def proxyClientCallback (cfg : ProxyConfig) (pc : Client) (cache : Cache)
    (a : AnswerRec) (addRecord : Bool) (now tps : Int) (fuel : Nat) : CBOut :=
  if !addRecord then .noAction
  else if dns64RestartCond cfg pc a then
    .restartAsA
      { pc with dns64state := DNS64State.aaaaSynthesis, q := { pc.q with qtype := kDNSType_A } }
  else
    let pc1 := dns64PtrTransition cfg pc a
    if pc1.dns64state == DNS64State.ptrSynthesisNXDomain then
      if pc1.questionSize ≤ AbsoluteMaxDNSMessageData then
        .sendMsg (questionOnlyMsg pc1 nxDomainFlags) pc1
      else .sendMalformed pc1
    else if !a.negative && a.rrtype != pc1.q.qtype then .waitForReal
    else
      match addResourceRecords pc1 now tps cache fuel with
      | .ok st => .sendMsg ⟨st.flags, st.items, st.used⟩ pc1
      | .overflowAt st =>
        if !pc1.tcp then
          .sendMsg ⟨⟨st.flags.b0 ||| kDNSFlag0_TC, st.flags.b1⟩,
            prefixWithin st.safe st.items, st.safe⟩ pc1
        else
          .sendMsg ⟨st.flags, prefixWithin st.safe st.items, st.safe⟩ pc1
      | .noRecord =>
        if pc1.questionSize ≤ AbsoluteMaxDNSMessageData then
          .sendMsg (questionOnlyMsg pc1 (noRecordReplyFlags pc1)) pc1
        else .dropNoSend pc1
      | .qFail =>
        if pc1.questionSize ≤ AbsoluteMaxDNSMessageData then
          .sendMsg (questionOnlyMsg pc1 (noRecordReplyFlags pc1)) pc1
        else .dropNoSend pc1
      | .diverge => .diverge

/-! ## The client registry as a transition system -/

/-- The unlink of the `done:` path of `ProxyClientCallback` (dnsproxy.c lines
556-563): walk the registry for the record identical to `pc` (pointer
identity, modelled by `uid`) and unlink it; if it is not found the registry
is left unchanged. -/
def removeClientByUid : List Client → Nat → List Client
  | [], _ => []
  | c :: rest, u => if c.uid == u then rest else c :: removeClientByUid rest u

/-- Two stored client records carry the same duplicate-suppression key
(compared exactly as `IsDuplicateClient` compares a stored record against a
request). -/
def clientKeysMatch (a b : Client) : Bool :=
  requestKeyMatches a b.addr b.port b.msgid ⟨b.qname, b.qtype, b.q.qclass, 0⟩

/-- One registry transition: a UDP ingress, a TCP ingress (including the
teardown branch), or the removal performed by `ProxyClientCallback` after a
response is sent. -/
inductive RegStep (s : List Client) : List Client → Prop where
  | udp (cfg : ProxyConfig) (r : Request) : RegStep s (proxyUDPCallback cfg s r).2
  | tcp (cfg : ProxyConfig) (r : Request) : RegStep s (proxyTCPCallback cfg s r).2
  | callbackRemove (u : Nat) : RegStep s (removeClientByUid s u)

/-- Registry states reachable from the empty registry
(`static DNSProxyClient *DNSProxyClients` starts NULL). -/
inductive ReachableReg : List Client → Prop where
  | empty : ReachableReg []
  | step {s t : List Client} : ReachableReg s → RegStep s t → ReachableReg t

/-! ## Concrete inputs used by witnesses and counterexamples -/

/-- A client asking `A IN` for the one-byte name `[1]`, with a 10-byte
question section. -/
def asmClient (tcp : Bool) (rcvBuf : Nat) (reqFlags : Flags) : Client :=
  { uid := 0, addr := 1, port := 2, msgid := 3, interfaceID := 4, socket := 5,
    tcp := tcp, requestFlags := reqFlags, optPresent := false, optLen := 0,
    rcvBufSize := rcvBuf, context := false, qname := [1],
    q := ⟨[1], 1, 1, zeroFlags⟩, qtype := 1, dns64state := .initial,
    questionSize := 10, synthCNAMESize := 0 }

/-- A positive A/IN cache record answering the question. -/
def posRec (size : Nat) (rf : Flags) (ttl : Nat) (rcvd : Int) (soa : Option SOARec) :
    CacheRecord :=
  { negative := false, rrtype := 1, rrclass := 1, responseFlags := rf,
    rroriginalttl := ttl, timeRcvd := rcvd, size := size, soa := soa,
    answersQuestion := true, cnameTarget := [], synthOK := false }

/-- A one-group cache holding exactly one record under the name `[1]`. -/
def oneRecCache (r : CacheRecord) : Cache := [([1], [r])]

/-- The builder state of a successful assembly (used to name witness
states without writing them out). -/
def asmOkState (pc : Client) (now tps : Int) (cache : Cache) (fuel : Nat) : AsmState :=
  match addResourceRecords pc now tps cache fuel with
  | .ok st => st
  | _ => initAsmState

/-- Whether the unbounded assembly run completes with a data section larger
than `l` — the formal rendering of "the full set of records would exceed the
size bound". -/
def okExceeds (o : AsmOut) (l : Nat) : Bool :=
  match o with
  | .ok st => l < st.used
  | _ => false

/-- Total wire size of a list of emitted elements. -/
def sumSizes (l : List Emit) : Nat := (l.map Emit.size).sum

/-- Every emitted answer-section record carries the adjusted TTL of
line 359 for its source cache record. -/
def answerTTLok (now tps : Int) (st : AsmState) : Prop :=
  ∀ e ∈ st.items, ∀ cr, e.kind = EmitKind.answer cr → e.ttl = adjTTL now tps cr

/-- The safe cursor sits at a record boundary: it is the size of a prefix
of the emitted elements that is empty or ends with an answer record or the
SOA. -/
def safeAtBoundary (st : AsmState) : Prop :=
  ∃ pre, List.IsPrefix pre st.items ∧ sumSizes pre = st.safe
    ∧ (pre = [] ∨ ∃ e, pre.getLast? = some e ∧ updatesSafe e.kind = true)

/-- The size bookkeeping invariant of the builder state under limit `l`:
the cursor is the total emitted size, and the safe cursor is a record
boundary within the limit. -/
def asmInv (l : Nat) (st : AsmState) : Prop :=
  st.used = sumSizes st.items ∧ st.safe ≤ l ∧ safeAtBoundary st

/-- The truncation invariant of the bounded assembly under the client's
reply limit: the bookkeeping of `asmInv`, and a data cursor within the
limit except possibly right after `putQuestion`, whose limit is the
absolute maximum (lines 288, 486, 533), not the reply limit. -/
def truncInv (pc : Client) (st : AsmState) : Prop :=
  asmInv (computeLimit pc) st
    ∧ (st.used ≤ computeLimit pc ∨ st.used = pc.questionSize)

/-- Witness inputs for the UDP truncation scenario: a plain UDP client
(limit 512), a proxy with DNS64 off, and a cache whose one answering
record is 600 bytes — too large for the reply. -/
def pc3w : Client := asmClient false 0 zeroFlags

def cfg3w : ProxyConfig := ⟨[1, 0, 0, 0, 0], 2, false, false, 0, []⟩

def cache3w : Cache := oneRecCache (posRec 600 ⟨0x80, 0⟩ 100 0 none)

/-- C9: For every call to Init that supplies a NAT64 prefix, DNS64 is enabled
iff the prefix bit length is one of 32, 40, 48, 56, 64, 96; for a valid
length, exactly `bitLen / 8` bytes are copied from the caller's buffer into
the stored (zeroed) prefix; for any other length DNS64 is disabled and the
force-synthesis flag is cleared. -/
theorem c9_dns64_prefix_validation (cfg : ProxyConfig) (ipIfArr : List Nat) (opIf : Nat)
    (buf : List Nat) (bitLen : Int) (force : Bool) :
    ((dnsProxyInit cfg ipIfArr opIf (some buf) bitLen force).dns64Enabled = true
        ↔ bitLen ∈ validPrefixBitLens)
    ∧ (bitLen ∈ validPrefixBitLens →
        (dnsProxyInit cfg ipIfArr opIf (some buf) bitLen force).dns64PrefixData
          = memCopyFromZeroed buf (bitLen / 8).toNat)
    ∧ (bitLen ∉ validPrefixBitLens →
        (dnsProxyInit cfg ipIfArr opIf (some buf) bitLen force).dns64Enabled = false
        ∧ (dnsProxyInit cfg ipIfArr opIf (some buf) bitLen force).dns64Force = false) := by
  by_cases h32 : bitLen = 32
  · subst h32; refine ⟨by simp [dnsProxyInit, validPrefixBitLens], fun _ => ?_, fun h => ?_⟩
    · rfl
    · exact absurd (by norm_num [validPrefixBitLens]) h
  · by_cases h40 : bitLen = 40
    · subst h40; refine ⟨by simp [dnsProxyInit, validPrefixBitLens], fun _ => ?_, fun h => ?_⟩
      · rfl
      · exact absurd (by norm_num [validPrefixBitLens]) h
    · by_cases h48 : bitLen = 48
      · subst h48; refine ⟨by simp [dnsProxyInit, validPrefixBitLens], fun _ => ?_, fun h => ?_⟩
        · rfl
        · exact absurd (by norm_num [validPrefixBitLens]) h
      · by_cases h56 : bitLen = 56
        · subst h56; refine ⟨by simp [dnsProxyInit, validPrefixBitLens], fun _ => ?_, fun h => ?_⟩
          · rfl
          · exact absurd (by norm_num [validPrefixBitLens]) h
        · by_cases h64 : bitLen = 64
          · subst h64
            refine ⟨by simp [dnsProxyInit, validPrefixBitLens], fun _ => ?_, fun h => ?_⟩
            · rfl
            · exact absurd (by norm_num [validPrefixBitLens]) h
          · by_cases h96 : bitLen = 96
            · subst h96
              refine ⟨by simp [dnsProxyInit, validPrefixBitLens], fun _ => ?_, fun h => ?_⟩
              · rfl
              · exact absurd (by norm_num [validPrefixBitLens]) h
            · have hnotin : bitLen ∉ validPrefixBitLens := by
                simp [validPrefixBitLens, h32, h40, h48, h56, h64, h96]
              refine ⟨?_, fun h => absurd h hnotin, fun _ => ?_⟩
              · simp only [dnsProxyInit, h32, h40, h48, h56, h64, h96, if_false]
                simpa using hnotin
              · simp [dnsProxyInit, h32, h40, h48, h56, h64, h96]

/-- Witness for C9 at a concrete input: a /96 prefix enables DNS64 and copies
12 bytes; an italic length such as 33 is in no case valid. -/
theorem c9_dns64_prefix_validation_witness :
    ((96 : Int) ∈ validPrefixBitLens)
    ∧ (dnsProxyInit ⟨[0, 0, 0, 0, 0], 0, false, false, 0, []⟩ [7] 9
        (some [0x64, 0xFF, 0x9B, 0, 0, 0, 0, 0, 0, 0, 0, 0]) 96 false).dns64PrefixData
        = memCopyFromZeroed [0x64, 0xFF, 0x9B, 0, 0, 0, 0, 0, 0, 0, 0, 0] ((96 : Int) / 8).toNat :=
  ⟨by decide,
    (c9_dns64_prefix_validation ⟨[0, 0, 0, 0, 0], 0, false, false, 0, []⟩ [7] 9
      [0x64, 0xFF, 0x9B, 0, 0, 0, 0, 0, 0, 0, 0, 0] 96 false).2.1 (by decide)⟩

/-- C10: Calling `DNSProxyInit` with a NULL NAT64 prefix pointer leaves the
whole DNS64 configuration (enabled flag, stored prefix, force flag) exactly
as it was, and only overwrites the input interface list and the output
interface. -/
theorem c10_init_null_prefix_frame (cfg : ProxyConfig) (ipIfArr : List Nat) (opIf : Nat)
    (bitLen : Int) (force : Bool) :
    (dnsProxyInit cfg ipIfArr opIf none bitLen force).dns64Enabled = cfg.dns64Enabled
    ∧ (dnsProxyInit cfg ipIfArr opIf none bitLen force).dns64Force = cfg.dns64Force
    ∧ (dnsProxyInit cfg ipIfArr opIf none bitLen force).dns64PrefixLen = cfg.dns64PrefixLen
    ∧ (dnsProxyInit cfg ipIfArr opIf none bitLen force).dns64PrefixData = cfg.dns64PrefixData
    ∧ (dnsProxyInit cfg ipIfArr opIf none bitLen force).dp_ipintf
        = (List.range MaxIp).map (fun i => ipIfArr.getD i 0)
    ∧ (dnsProxyInit cfg ipIfArr opIf none bitLen force).dp_opintf = opIf := by
  refine ⟨rfl, rfl, rfl, rfl, rfl, rfl⟩

/-- C4: for every received message that passes the interface filter and the
header-length check and carries the Standard Query opcode, a FormErr reply
is emitted iff `numQuestions ≠ 1` or `numAnswers ≠ 0` or
`numAuthorities ≠ 0`, or the single question fails to parse;
`numAdditionals` (universally quantified here) never triggers FormErr. -/
theorem c4_formerr_iff (cfg : ProxyConfig) (reg : List Client) (r : Request)
    (hIf : checkDNSProxyIpIntf cfg r.interfaceID = true)
    (hLen : DNSMessageHeaderSize ≤ r.msgLen)
    (hOp : r.flags.b0 &&& kDNSFlag0_QROP_Mask = kDNSFlag0_QR_Query) :
    (proxyCallbackCommon cfg reg r).1 = .errorReply kDNSFlag1_RC_FormErr
      ↔ (r.numQuestions ≠ 1 ∨ r.numAnswers ≠ 0 ∨ r.numAuthorities ≠ 0
          ∨ r.question = none) := by
  have hLen' : ¬ r.msgLen < DNSMessageHeaderSize := not_lt.mpr hLen
  unfold proxyCallbackCommon
  rw [hIf, hOp]
  simp only [Bool.not_true, Bool.false_eq_true, if_false, hLen', bne_self_eq_false]
  by_cases hc : r.numQuestions != 1 || r.numAnswers != 0 || r.numAuthorities != 0
  · simp only [hc, if_true]
    constructor
    · intro _
      rcases Bool.or_eq_true_iff.mp hc with h | h
      · rcases Bool.or_eq_true_iff.mp h with h1 | h1
        · exact Or.inl (by simpa using h1)
        · exact Or.inr (Or.inl (by simpa using h1))
      · exact Or.inr (Or.inr (Or.inl (by simpa using h)))
    · intro _; trivial
  · simp only [hc, if_false]
    have hq1 : r.numQuestions = 1 := by
      by_contra h
      exact hc (by simp [bne_iff_ne, h])
    have ha0 : r.numAnswers = 0 := by
      by_contra h
      exact hc (by simp [bne_iff_ne, h])
    have hau0 : r.numAuthorities = 0 := by
      by_contra h
      exact hc (by simp [bne_iff_ne, h])
    cases hqq : r.question with
    | none => simp [hqq]
    | some q =>
      simp only [hqq, hq1, ha0, hau0]
      constructor
      · intro h
        by_cases hdup : isDuplicateClient reg r.srcaddr r.srcport r.msgId q
        · simp [hdup] at h
        · simp only [hdup, if_false] at h
          by_cases hal : r.allocClientOK
          · simp only [hal, Bool.not_true, Bool.false_eq_true, if_false] at h
            cases ho : r.opt with
            | none => simp [ho] at h
            | some o =>
              cases hp : parseEDNS0 o with
              | none => simp [ho, hp] at h
              | some rb =>
                by_cases hao : r.allocOptOK
                · simp [ho, hp, hao] at h
                · simp [ho, hp, hao] at h
          · simp [hal] at h
      · intro h
        rcases h with h | h | h | h
        · exact absurd rfl h
        · exact absurd rfl h
        · exact absurd rfl h
        · cases h

/-- Witness for C4: a well-formed standard query with `numAnswers = 3` on an
admitted interface gets a FormErr verdict from the iff. -/
theorem c4_formerr_iff_witness :
    (checkDNSProxyIpIntf ⟨[4, 0, 0, 0, 0], 9, false, false, 0, []⟩ 4 = true)
    ∧ ((proxyCallbackCommon ⟨[4, 0, 0, 0, 0], 9, false, false, 0, []⟩ []
          { srcaddr := 1, srcport := 2, msgId := 3, flags := ⟨0, 0⟩,
            numQuestions := 1, numAnswers := 3, numAuthorities := 0,
            numAdditionals := 5, msgLen := 40,
            question := some ⟨[0], 1, 1, 5⟩, opt := none, socket := 0,
            tcp := false, context := false, interfaceID := 4,
            allocClientOK := true, allocOptOK := true, uid := 0,
            synthCNAMESize := 0, ptrMapsTo := none }).1
        = .errorReply kDNSFlag1_RC_FormErr
      ↔ ((1 : Nat) ≠ 1 ∨ (3 : Nat) ≠ 0 ∨ (0 : Nat) ≠ 0
          ∨ (some (⟨[0], 1, 1, 5⟩ : Question) : Option Question) = none)) :=
  ⟨by decide,
    c4_formerr_iff ⟨[4, 0, 0, 0, 0], 9, false, false, 0, []⟩ []
      { srcaddr := 1, srcport := 2, msgId := 3, flags := ⟨0, 0⟩,
        numQuestions := 1, numAnswers := 3, numAuthorities := 0,
        numAdditionals := 5, msgLen := 40,
        question := some ⟨[0], 1, 1, 5⟩, opt := none, socket := 0,
        tcp := false, context := false, interfaceID := 4,
        allocClientOK := true, allocOptOK := true, uid := 0,
        synthCNAMESize := 0, ptrMapsTo := none }
      (by decide) (by decide) (by decide)⟩

theorem removeClientByUid_sublist (l : List Client) (u : Nat) :
    List.Sublist (removeClientByUid l u) l := by
  induction l with
  | nil => exact List.Sublist.refl _
  | cons c rest ih =>
    simp only [removeClientByUid]
    by_cases h : (c.uid == u) = true
    · rw [if_pos h]
      exact List.Sublist.cons c (List.Sublist.refl rest)
    · rw [if_neg h]
      exact List.Sublist.cons₂ c ih

theorem splitAtSocket_eq (sock : Nat) (l : List Client)
    (pre : List Client) (m : Client) (post : List Client)
    (h : splitAtSocket sock l = some (pre, m, post)) : l = pre ++ m :: post := by
  induction l generalizing pre with
  | nil => simp [splitAtSocket] at h
  | cons c rest ih =>
    simp only [splitAtSocket] at h
    by_cases hc : (c.socket == sock) = true
    · rw [if_pos hc] at h
      simp only [Option.some.injEq, Prod.mk.injEq] at h
      obtain ⟨h1, h2, h3⟩ := h
      subst h1 h2 h3; rfl
    · rw [if_neg hc] at h
      cases hs : splitAtSocket sock rest with
      | none => rw [hs] at h; cases h
      | some t =>
        obtain ⟨pre1, m1, post1⟩ := t
        rw [hs] at h
        simp only [Option.some.injEq, Prod.mk.injEq] at h
        obtain ⟨h1, h2, h3⟩ := h
        subst h2 h3
        rw [← h1]
        simpa using ih pre1 hs

theorem proxyTCPTeardown_sublist (reg : List Client) (sock : Nat) :
    List.Sublist (proxyTCPTeardown reg sock).1 reg := by
  unfold proxyTCPTeardown
  cases hs : splitAtSocket sock reg with
  | none => exact List.Sublist.refl _
  | some t =>
    obtain ⟨pre, m, post⟩ := t
    have he := splitAtSocket_eq sock reg pre m post hs
    rw [he]
    exact List.Sublist.append (List.dropLast_sublist pre)
      (List.Sublist.cons m (List.Sublist.refl post))

/-- The key fields of the client record built by ingress: `setupAndTransform`
does not touch addr, port, msgid or the snapshot qname, sets the snapshot
`qtype` to the parsed qtype, and gives the live question the parsed qclass
(the DNS64 ingress transforms rewrite only the live qname or live qtype). -/
theorem setupAndTransform_key (cfg : ProxyConfig) (r : Request) (q : Question) (pc0 : Client) :
    (setupAndTransform cfg r q pc0).addr = pc0.addr
    ∧ (setupAndTransform cfg r q pc0).port = pc0.port
    ∧ (setupAndTransform cfg r q pc0).msgid = pc0.msgid
    ∧ (setupAndTransform cfg r q pc0).qtype = q.qtype
    ∧ (setupAndTransform cfg r q pc0).q.qclass = q.qclass
    ∧ (setupAndTransform cfg r q pc0).qname = pc0.qname := by
  unfold setupAndTransform
  by_cases hE : cfg.dns64Enabled <;>
    cases hM : r.ptrMapsTo <;>
      simp [hE, hM] <;> split_ifs <;> simp

/-- A fresh client inserted under a false duplicate test never key-matches a
registry member. -/
theorem no_keyMatch_of_not_duplicate (reg : List Client) (cfg : ProxyConfig)
    (r : Request) (q : Question) (pc0 : Client) (hname : pc0.qname = q.qname)
    (hdup : isDuplicateClient reg r.srcaddr r.srcport r.msgId q = false)
    (hpc0 : pc0.addr = r.srcaddr ∧ pc0.port = r.srcport ∧ pc0.msgid = r.msgId) :
    ∀ x ∈ reg, clientKeysMatch x (setupAndTransform cfg r q pc0) = false := by
  intro x hx
  obtain ⟨ha, hp, hm, hqt, hqc, hqn⟩ := setupAndTransform_key cfg r q pc0
  by_contra hne
  have hmt : clientKeysMatch x (setupAndTransform cfg r q pc0) = true := by
    revert hne; cases clientKeysMatch x (setupAndTransform cfg r q pc0) <;> simp
  have hreq : requestKeyMatches x r.srcaddr r.srcport r.msgId q = true := by
    unfold clientKeysMatch at hmt
    rw [ha, hp, hm, hqn, hname, hpc0.1, hpc0.2.1, hpc0.2.2] at hmt
    unfold requestKeyMatches at hmt ⊢
    simpa [hqt, hqc] using hmt
  have : isDuplicateClient reg r.srcaddr r.srcport r.msgId q = true :=
    List.any_eq_true.mpr ⟨x, hx, hreq⟩
  rw [hdup] at this; cases this

/-- The registry after ingress is either unchanged or extended by exactly the
new client, inserted under a false duplicate test. -/
theorem proxyCallbackCommon_registry_cases (cfg : ProxyConfig) (reg : List Client)
    (r : Request) :
    (proxyCallbackCommon cfg reg r).2 = reg
    ∨ ∃ q pc0, r.question = some q
        ∧ isDuplicateClient reg r.srcaddr r.srcport r.msgId q = false
        ∧ pc0.qname = q.qname ∧ pc0.addr = r.srcaddr ∧ pc0.port = r.srcport
        ∧ pc0.msgid = r.msgId
        ∧ (proxyCallbackCommon cfg reg r).2 = reg ++ [setupAndTransform cfg r q pc0] := by
  unfold proxyCallbackCommon
  by_cases h1 : (!checkDNSProxyIpIntf cfg r.interfaceID) = true
  · rw [if_pos h1]; left; rfl
  rw [if_neg h1]
  by_cases h2 : r.msgLen < DNSMessageHeaderSize
  · rw [if_pos h2]; left; rfl
  rw [if_neg h2]
  by_cases h3 : (r.flags.b0 &&& kDNSFlag0_QROP_Mask != kDNSFlag0_QR_Query) = true
  · rw [if_pos h3]; left; rfl
  rw [if_neg h3]
  by_cases h4 : (r.numQuestions != 1 || r.numAnswers != 0 || r.numAuthorities != 0) = true
  · rw [if_pos h4]; left; rfl
  rw [if_neg h4]
  cases hq : r.question with
  | none => left; rfl
  | some q =>
    dsimp only
    by_cases hdup : (isDuplicateClient reg r.srcaddr r.srcport r.msgId q) = true
    · rw [if_pos hdup]; left; rfl
    rw [if_neg hdup]
    have hdup' : isDuplicateClient reg r.srcaddr r.srcport r.msgId q = false :=
      Bool.eq_false_iff.mpr hdup
    by_cases h5 : (!r.allocClientOK) = true
    · rw [if_pos h5]; left; rfl
    rw [if_neg h5]
    cases ho : r.opt with
    | none =>
      dsimp only
      exact Or.inr ⟨q, ingressClientBase r q, rfl, hdup', rfl, rfl, rfl, rfl, rfl⟩
    | some o =>
      dsimp only
      cases hpe : parseEDNS0 o with
      | none =>
        dsimp only
        exact Or.inr ⟨q, ingressClientBase r q, rfl, hdup', rfl, rfl, rfl, rfl, rfl⟩
      | some rb =>
        dsimp only
        by_cases h6 : (!r.allocOptOK) = true
        · rw [if_pos h6]; left; rfl
        rw [if_neg h6]
        exact Or.inr ⟨q, ingressClientWithOpt r q o rb, rfl, hdup', rfl, rfl, rfl, rfl, rfl⟩

/-- Ingress preserves pairwise key-distinctness of the registry. -/
theorem proxyCallbackCommon_pairwise (cfg : ProxyConfig) (reg : List Client) (r : Request)
    (hp : reg.Pairwise (fun a b => clientKeysMatch a b = false)) :
    (proxyCallbackCommon cfg reg r).2.Pairwise (fun a b => clientKeysMatch a b = false) := by
  rcases proxyCallbackCommon_registry_cases cfg reg r with
    h | ⟨q, pc0, hq, hdup, hn, ha, hpt, hm, he⟩
  · rw [h]; exact hp
  · rw [he, List.pairwise_append]
    refine ⟨hp, List.pairwise_singleton _ _, ?_⟩
    intro a ha' b hb
    rw [List.mem_singleton] at hb
    subst hb
    exact no_keyMatch_of_not_duplicate reg cfg r q pc0 hn hdup ⟨ha, hpt, hm⟩ a ha'

/-- C6: (a) in every reachable registry state, at most one client record
exists for any (source address, source port, message id, qtype, qclass,
qname) tuple, the qname compared case-insensitively — i.e. the registry is
pairwise key-distinct; and (b) a request whose tuple matches an in-flight
client is dropped silently, leaving the registry unchanged and creating no
record. -/
theorem c6_duplicate_suppression :
    (∀ s, ReachableReg s → s.Pairwise (fun a b => clientKeysMatch a b = false))
    ∧ (∀ (cfg : ProxyConfig) (reg : List Client) (r : Request) (q : Question),
        checkDNSProxyIpIntf cfg r.interfaceID = true →
        DNSMessageHeaderSize ≤ r.msgLen →
        r.flags.b0 &&& kDNSFlag0_QROP_Mask = kDNSFlag0_QR_Query →
        r.numQuestions = 1 → r.numAnswers = 0 → r.numAuthorities = 0 →
        r.question = some q →
        isDuplicateClient reg r.srcaddr r.srcport r.msgId q = true →
        proxyCallbackCommon cfg reg r = (.duplicateDrop, reg)) := by
  constructor
  · intro s hs
    induction hs with
    | empty => exact List.Pairwise.nil
    | @step s' t hr hstep ih =>
      cases hstep with
      | udp cfg r => exact proxyCallbackCommon_pairwise cfg s' _ ih
      | tcp cfg r =>
        unfold proxyTCPCallback
        by_cases hc : (r.msgLen == 0 || !checkDNSProxyIpIntf cfg r.interfaceID) = true
        · rw [if_pos hc]
          exact List.Pairwise.sublist (proxyTCPTeardown_sublist s' r.socket) ih
        · rw [if_neg hc]
          exact proxyCallbackCommon_pairwise cfg s' _ ih
      | callbackRemove u =>
        exact List.Pairwise.sublist (removeClientByUid_sublist s' u) ih
  · intro cfg reg r q hIf hLen hOp h1 h2 h3 hq hdup
    have hLen' : ¬ r.msgLen < DNSMessageHeaderSize := not_lt.mpr hLen
    unfold proxyCallbackCommon
    rw [hIf, hOp]
    simp [hLen', h1, h2, h3, hq, hdup]

/-- Witness for C6: the empty registry is reachable and pairwise
key-distinct, and a concrete duplicate request against a one-client registry
is dropped with the registry unchanged. -/
theorem c6_duplicate_suppression_witness :
    ([] : List Client).Pairwise (fun a b => clientKeysMatch a b = false)
    ∧ proxyCallbackCommon ⟨[3, 0, 0, 0, 0], 9, false, false, 0, []⟩ [mkClient 5 8]
        { srcaddr := 10, srcport := 5353, msgId := 7, flags := ⟨0, 0⟩,
          numQuestions := 1, numAnswers := 0, numAuthorities := 0,
          numAdditionals := 0, msgLen := 30,
          question := some ⟨[3, 97, 98, 99, 0], 1, 1, 9⟩, opt := none,
          socket := 8, tcp := true, context := true, interfaceID := 3,
          allocClientOK := true, allocOptOK := true, uid := 6,
          synthCNAMESize := 0, ptrMapsTo := none }
        = (.duplicateDrop, [mkClient 5 8]) :=
  ⟨c6_duplicate_suppression.1 [] ReachableReg.empty,
    c6_duplicate_suppression.2 ⟨[3, 0, 0, 0, 0], 9, false, false, 0, []⟩ [mkClient 5 8]
      { srcaddr := 10, srcport := 5353, msgId := 7, flags := ⟨0, 0⟩,
        numQuestions := 1, numAnswers := 0, numAuthorities := 0,
        numAdditionals := 0, msgLen := 30,
        question := some ⟨[3, 97, 98, 99, 0], 1, 1, 9⟩, opt := none,
        socket := 8, tcp := true, context := true, interfaceID := 3,
        allocClientOK := true, allocOptOK := true, uid := 6,
        synthCNAMESize := 0, ptrMapsTo := none }
      ⟨[3, 97, 98, 99, 0], 1, 1, 9⟩
      (by decide) (by decide) (by decide) rfl rfl rfl rfl (by decide)⟩

/-- C1 (code bug evaluation): tearing down the TCP socket of the *second*
client in the registry unlinks the first client as well.  With registry
`[c0, c1]` and `c1.socket` closing, the code leaves an empty registry: `c1`
is freed, but `c0` — whose socket was never closed — is also unlinked (and
never freed, its resolver question never stopped), contradicting the claim
that every other client record remains linked. -/
theorem c1_tcp_teardown_unlinks_predecessor :
    (proxyTCPTeardown [mkClient 0 1, mkClient 1 2] 2).1 = []
    ∧ (proxyTCPTeardown [mkClient 0 1, mkClient 1 2] 2).2 = some (mkClient 1 2)
    ∧ mkClient 0 1 ∉ (proxyTCPTeardown [mkClient 0 1, mkClient 1 2] 2).1 := by
  decide

/-- C2 counterexample: the claim says the opt buffer is released *before*
the platform context.  On the removal path of `ProxyClientCallback`, with
both an opt buffer and a platform context attached, the context is disposed
at position 2 and the opt buffer freed at position 3 of the event trace, so
the opt buffer is not released before the context. -/
theorem c2_opt_before_context_false :
    removalEvents .clientCallbackDone true true
      = [.stopQuery, .unlink, .disposeContext, .freeOptBuffer, .freeClientRecord]
    ∧ ¬ (removalEvents .clientCallbackDone true true).indexOf ReleaseEvent.freeOptBuffer
        < (removalEvents .clientCallbackDone true true).indexOf ReleaseEvent.disposeContext := by
  decide

/-- C2 (amended): on every removal path, when both an opt buffer and a
platform context are attached, the platform context is released strictly
before the opt buffer (the reverse of the order the claim states). -/
theorem c2_context_released_before_opt (path : TeardownPath) (hasOpt hasCtx : Bool)
    (hOpt : hasOpt = true) (hCtx : hasCtx = true) :
    (removalEvents path hasOpt hasCtx).indexOf ReleaseEvent.disposeContext
      < (removalEvents path hasOpt hasCtx).indexOf ReleaseEvent.freeOptBuffer := by
  subst hOpt hCtx
  cases path <;> decide

/-- Witness for the amended C2 on the `ProxyClientCallback` removal path. -/
theorem c2_context_released_before_opt_witness :
    (removalEvents .clientCallbackDone true true).indexOf ReleaseEvent.disposeContext
      < (removalEvents .clientCallbackDone true true).indexOf ReleaseEvent.freeOptBuffer :=
  c2_context_released_before_opt .clientCallbackDone true true rfl rfl

/-! ## Assembly lemmas: the emit primitives -/

theorem bumpCount_flags (st : AsmState) (k : EmitKind) : (bumpCount st k).flags = st.flags := by
  cases k <;> rfl

theorem emitPush_flags (st : AsmState) (k : EmitKind) (ttl : Int) (size : Nat) :
    (emitPush st k ttl size).flags = st.flags := by
  cases k <;> rfl

theorem putWithLimit_some_eq {lim : Option Nat} {st : AsmState} {k : EmitKind} {ttl : Int}
    {size : Nat} {st1 : AsmState} (h : putWithLimit lim st k ttl size = some st1) :
    st1 = emitPush st k ttl size := by
  cases lim with
  | none => simp only [putWithLimit] at h; injection h with h; exact h.symm
  | some l =>
    simp only [putWithLimit] at h
    by_cases hf : st.used + size ≤ l
    · rw [if_pos hf] at h; injection h with h; exact h.symm
    · rw [if_neg hf] at h; exact absurd h (by simp)

theorem putWithLimit_some_le {l : Nat} {st : AsmState} {k : EmitKind} {ttl : Int}
    {size : Nat} {st1 : AsmState} (h : putWithLimit (some l) st k ttl size = some st1) :
    st.used + size ≤ l := by
  simp only [putWithLimit] at h
  by_cases hf : st.used + size ≤ l
  · exact hf
  · rw [if_neg hf] at h; exact absurd h (by simp)

theorem putWithLimit_flags {lim : Option Nat} {st : AsmState} {k : EmitKind} {ttl : Int}
    {size : Nat} {st1 : AsmState} (h : putWithLimit lim st k ttl size = some st1) :
    st1.flags = st.flags := by
  rw [putWithLimit_some_eq h]; exact emitPush_flags st k ttl size

/-- `recordEmit` either leaves the state untouched (negative marker, failed
AAAA synthesis) or is one `putWithLimit` of an answer item carrying the
adjusted TTL. -/
theorem recordEmit_cases (lim : Option Nat) (pc : Client) (now tps : Int) (st : AsmState)
    (cr : CacheRecord) :
    recordEmit lim pc now tps st cr = some st
    ∨ (∃ size, recordEmit lim pc now tps st cr
        = putWithLimit lim st (.answer cr) (adjTTL now tps cr) size) := by
  unfold recordEmit
  by_cases hneg : cr.negative = true
  · rw [if_pos hneg]; exact Or.inl rfl
  · rw [if_neg hneg]
    by_cases hsyn : (pc.dns64state == DNS64State.aaaaSynthesis && cr.rrtype == kDNSType_A) = true
    · rw [if_pos hsyn]
      by_cases hok : cr.synthOK = true
      · rw [if_pos hok]; exact Or.inr ⟨cr.size + 12, rfl⟩
      · rw [if_neg hok]; exact Or.inl rfl
    · rw [if_neg hsyn]; exact Or.inr ⟨cr.size, rfl⟩

theorem recordEmit_flags {lim : Option Nat} {pc : Client} {now tps : Int} {st : AsmState}
    {cr : CacheRecord} {st1 : AsmState} (h : recordEmit lim pc now tps st cr = some st1) :
    st1.flags = st.flags := by
  rcases recordEmit_cases lim pc now tps st cr with hc | ⟨size, hc⟩
  · rw [hc] at h; injection h with h; rw [← h]
  · rw [hc] at h; exact putWithLimit_flags h

theorem soaEmit_flags {lim : Option Nat} {st : AsmState} {soa : Option SOARec} {st1 : AsmState}
    (h : soaEmit lim st soa = some st1) : st1.flags = st.flags := by
  cases soa with
  | none => unfold soaEmit at h; injection h with h; rw [← h]
  | some s => exact putWithLimit_flags (h : putWithLimit lim st (.soaRec s) _ s.size = some st1)

theorem firstMatchInit_ok_flags {lim : Option Nat} {pc : Client} {cr : CacheRecord}
    {st1 : AsmState} (h : firstMatchInit lim pc cr = .ok st1) :
    st1.flags = setResponseFlags pc cr.responseFlags := by
  unfold firstMatchInit at h
  cases hq : putQuestionM { initAsmState with flags := setResponseFlags pc cr.responseFlags }
      pc.questionSize with
  | none => rw [hq] at h; cases h
  | some stq =>
    rw [hq] at h
    dsimp only at h
    have hqf : stq.flags = setResponseFlags pc cr.responseFlags := putWithLimit_flags hq
    by_cases hds : (pc.dns64state == DNS64State.ptrSynthesisSuccess) = true
    · rw [if_pos hds] at h
      cases hc : putWithLimit lim stq .synthCNAME 0 pc.synthCNAMESize with
      | none => rw [hc] at h; cases h
      | some st2 =>
        rw [hc] at h
        cases h
        rw [putWithLimit_flags hc]
        exact hqf
    · rw [if_neg hds] at h
      cases h
      exact hqf

theorem firstMatchInit_overflow_flags {lim : Option Nat} {pc : Client} {cr : CacheRecord}
    {stf : AsmState} (h : firstMatchInit lim pc cr = .overflowAt stf) :
    stf.flags = setResponseFlags pc cr.responseFlags := by
  unfold firstMatchInit at h
  cases hq : putQuestionM { initAsmState with flags := setResponseFlags pc cr.responseFlags }
      pc.questionSize with
  | none => rw [hq] at h; cases h
  | some stq =>
    rw [hq] at h
    dsimp only at h
    have hqf : stq.flags = setResponseFlags pc cr.responseFlags := putWithLimit_flags hq
    by_cases hds : (pc.dns64state == DNS64State.ptrSynthesisSuccess) = true
    · rw [if_pos hds] at h
      cases hc : putWithLimit lim stq .synthCNAME 0 pc.synthCNAMESize with
      | none => rw [hc] at h; cases h; exact hqf
      | some st2 => rw [hc] at h; cases h
    · rw [if_neg hds] at h; cases h

/-! ## Assembly lemmas: property transport through the scan and the chase -/

/-- With `first = false` the scan never reinitializes the message; any state
property preserved by `recordEmit` carries to its `.done` and `.overflowAt`
outputs, and a `.done` output has `first` still false. -/
theorem scanRecords_false_out (lim : Option Nat) (pc : Client) (now tps : Int)
    (P : AsmState → Prop)
    (hre : ∀ st cr st1, recordEmit lim pc now tps st cr = some st1 → P st → P st1) :
    ∀ (recs : List CacheRecord) (st : AsmState) (soa : Option SOARec)
      (cname : Option CacheRecord), P st →
      (∀ st1 f1 s1 c1, scanRecords lim pc now tps recs st false soa cname = .done st1 f1 s1 c1
          → P st1 ∧ f1 = false)
      ∧ (∀ stf, scanRecords lim pc now tps recs st false soa cname = .overflowAt stf
          → P stf) := by
  intro recs
  induction recs with
  | nil =>
    intro st soa cname hP
    refine ⟨?_, ?_⟩
    · intro st1 f1 s1 c1 h
      simp only [scanRecords] at h
      cases h
      exact ⟨hP, rfl⟩
    · intro stf h
      simp only [scanRecords] at h
      cases h
  | cons cr rest ih =>
    intro st soa cname hP
    by_cases hans : cr.answersQuestion = true
    · refine ⟨?_, ?_⟩
      · intro st1 f1 s1 c1 h
        simp only [scanRecords] at h
        rw [if_pos hans, if_neg Bool.false_ne_true] at h
        cases hre1 : recordEmit lim pc now tps st cr with
        | none => rw [hre1] at h; cases h
        | some st2 =>
          rw [hre1] at h
          exact (ih st2 _ _ (hre st cr st2 hre1 hP)).1 st1 f1 s1 c1 h
      · intro stf h
        simp only [scanRecords] at h
        rw [if_pos hans, if_neg Bool.false_ne_true] at h
        cases hre1 : recordEmit lim pc now tps st cr with
        | none =>
          rw [hre1] at h
          cases h
          exact hP
        | some st2 =>
          rw [hre1] at h
          exact (ih st2 _ _ (hre st cr st2 hre1 hP)).2 stf h
    · refine ⟨?_, ?_⟩
      · intro st1 f1 s1 c1 h
        simp only [scanRecords] at h
        rw [if_neg hans] at h
        exact (ih st soa cname hP).1 st1 f1 s1 c1 h
      · intro stf h
        simp only [scanRecords] at h
        rw [if_neg hans] at h
        exact (ih st soa cname hP).2 stf h

/-- With `first = true`, the scan either finds no answering record (leaving
everything unchanged) or runs the first-match block on the first answering
record `cr0` and from then on preserves any property established by that
block. -/
theorem scanRecords_true_out (lim : Option Nat) (pc : Client) (now tps : Int)
    (P : CacheRecord → AsmState → Prop)
    (hre : ∀ cr0 st cr st1, recordEmit lim pc now tps st cr = some st1 → P cr0 st → P cr0 st1)
    (hok : ∀ cr st1, firstMatchInit lim pc cr = .ok st1 → P cr st1)
    (hof : ∀ cr stf, firstMatchInit lim pc cr = .overflowAt stf → P cr stf) :
    ∀ (recs : List CacheRecord) (st : AsmState) (soa : Option SOARec)
      (cname : Option CacheRecord),
      (∀ st1 f1 s1 c1, scanRecords lim pc now tps recs st true soa cname = .done st1 f1 s1 c1
          → (f1 = true ∧ st1 = st ∧ s1 = soa ∧ c1 = cname
              ∧ List.find? (fun c => c.answersQuestion) recs = none)
            ∨ (f1 = false ∧ ∃ cr0, List.find? (fun c => c.answersQuestion) recs = some cr0
                ∧ P cr0 st1))
      ∧ (∀ stf, scanRecords lim pc now tps recs st true soa cname = .overflowAt stf
          → ∃ cr0, List.find? (fun c => c.answersQuestion) recs = some cr0 ∧ P cr0 stf) := by
  intro recs
  induction recs with
  | nil =>
    intro st soa cname
    refine ⟨?_, ?_⟩
    · intro st1 f1 s1 c1 h
      simp only [scanRecords] at h
      cases h
      exact Or.inl ⟨rfl, rfl, rfl, rfl, rfl⟩
    · intro stf h
      simp only [scanRecords] at h
      cases h
  | cons cr rest ih =>
    intro st soa cname
    by_cases hans : cr.answersQuestion = true
    · have hfind : List.find? (fun c => c.answersQuestion) (cr :: rest) = some cr := by
        simp [List.find?_cons, hans]
      refine ⟨?_, ?_⟩
      · intro st1 f1 s1 c1 h
        simp only [scanRecords] at h
        rw [if_pos hans, if_true] at h
        cases hfi : firstMatchInit lim pc cr with
        | qFail => rw [hfi] at h; cases h
        | overflowAt stf2 => rw [hfi] at h; cases h
        | ok sti =>
          rw [hfi] at h
          dsimp only at h
          cases hre1 : recordEmit lim pc now tps sti cr with
          | none => rw [hre1] at h; cases h
          | some st2 =>
            rw [hre1] at h
            have hP2 : P cr st2 := hre cr sti cr st2 hre1 (hok cr sti hfi)
            have hrest := (scanRecords_false_out lim pc now tps (P cr)
              (fun s c s1 hh hp => hre cr s c s1 hh hp) rest st2 _ _ hP2).1 st1 f1 s1 c1 h
            exact Or.inr ⟨hrest.2, cr, hfind, hrest.1⟩
      · intro stf h
        simp only [scanRecords] at h
        rw [if_pos hans, if_true] at h
        cases hfi : firstMatchInit lim pc cr with
        | qFail => rw [hfi] at h; cases h
        | overflowAt stf2 =>
          rw [hfi] at h
          cases h
          exact ⟨cr, hfind, hof cr _ hfi⟩
        | ok sti =>
          rw [hfi] at h
          dsimp only at h
          cases hre1 : recordEmit lim pc now tps sti cr with
          | none =>
            rw [hre1] at h
            cases h
            exact ⟨cr, hfind, hok cr _ hfi⟩
          | some st2 =>
            rw [hre1] at h
            have hP2 : P cr st2 := hre cr sti cr st2 hre1 (hok cr sti hfi)
            exact ⟨cr, hfind,
              (scanRecords_false_out lim pc now tps (P cr)
                (fun s c s1 hh hp => hre cr s c s1 hh hp) rest st2 _ _ hP2).2 stf h⟩
    · have hfind : List.find? (fun c => c.answersQuestion) (cr :: rest)
          = List.find? (fun c => c.answersQuestion) rest := by
        simp [List.find?_cons, hans]
      refine ⟨?_, ?_⟩
      · intro st1 f1 s1 c1 h
        simp only [scanRecords] at h
        rw [if_neg hans] at h
        rcases (ih st soa cname).1 st1 f1 s1 c1 h with ⟨h1, h2, h3, h4, h5⟩ | ⟨h1, cr0, h2, h3⟩
        · exact Or.inl ⟨h1, h2, h3, h4, by rw [hfind]; exact h5⟩
        · exact Or.inr ⟨h1, cr0, by rw [hfind]; exact h2, h3⟩
      · intro stf h
        simp only [scanRecords] at h
        rw [if_neg hans] at h
        obtain ⟨cr0, h2, h3⟩ := (ih st soa cname).2 stf h
        exact ⟨cr0, by rw [hfind]; exact h2, h3⟩

theorem soaEmit_pres (lim : Option Nat) (P : AsmState → Prop)
    (hsoa : ∀ st s st1, putWithLimit lim st (.soaRec s) (s.rroriginalttl : Int) s.size = some st1
        → P st → P st1) :
    ∀ st soa st1, soaEmit lim st soa = some st1 → P st → P st1 := by
  intro st soa st1 h hP
  cases soa with
  | none => unfold soaEmit at h; injection h with h; rw [← h]; exact hP
  | some s => exact hsoa st s st1 h hP

/-- Along the chase with `first = false`, any property preserved by
`recordEmit` and by `putWithLimit` transports to `.ok` and `.overflowAt`
outcomes. -/
theorem chaseLoop_false_pres (lim : Option Nat) (pc : Client) (now tps : Int)
    (cache : Cache) (P : AsmState → Prop)
    (hre : ∀ st cr st1, recordEmit lim pc now tps st cr = some st1 → P st → P st1)
    (hsoa : ∀ st s st1, putWithLimit lim st (.soaRec s) (s.rroriginalttl : Int) s.size = some st1
        → P st → P st1)
    (hopt : ∀ st st1, putWithLimit lim st .opt 0 11 = some st1 → P st → P st1) :
    ∀ (fuel : Nat) (nm : Name) (st : AsmState), P st →
      ∀ out, chaseLoop lim pc now tps cache fuel nm st false = out →
        (∀ st1, out = .ok st1 → P st1) ∧ (∀ stf, out = .overflowAt stf → P stf) := by
  intro fuel
  induction fuel with
  | zero =>
    intro nm st hP out h
    simp only [chaseLoop] at h
    subst h
    exact ⟨fun st1 h1 => (by cases h1), fun stf h1 => (by cases h1)⟩
  | succ fuel ih =>
    intro nm st hP out h
    simp only [chaseLoop] at h
    cases hlook : cacheLookup cache nm with
    | none =>
      rw [hlook] at h
      subst h
      exact ⟨fun st1 h1 => (by cases h1), fun stf h1 => (by cases h1)⟩
    | some recs =>
      rw [hlook] at h
      dsimp only at h
      cases hsc : scanRecords lim pc now tps recs st false none none with
      | qFail =>
        rw [hsc] at h
        subst h
        exact ⟨fun st1 h1 => (by cases h1), fun stf h1 => (by cases h1)⟩
      | overflowAt stf2 =>
        rw [hsc] at h
        subst h
        have hPf := (scanRecords_false_out lim pc now tps P hre recs st none none hP).2 stf2 hsc
        refine ⟨fun st1 h1 => (by cases h1), fun stf h1 => ?_⟩
        injection h1 with h1
        rw [← h1]; exact hPf
      | done st2 f2 s2 c2 =>
        rw [hsc] at h
        dsimp only at h
        obtain ⟨hP2, hf2⟩ :=
          (scanRecords_false_out lim pc now tps P hre recs st none none hP).1 st2 f2 s2 c2 hsc
        subst hf2
        cases hse : soaEmit lim st2 s2 with
        | none =>
          rw [hse] at h
          dsimp only at h
          subst h
          refine ⟨fun st1 h1 => (by cases h1), fun stf h1 => ?_⟩
          injection h1 with h1
          rw [← h1]; exact hP2
        | some st3 =>
          rw [hse] at h
          dsimp only at h
          have hP3 : P st3 := soaEmit_pres lim P hsoa st2 s2 st3 hse hP2
          cases c2 with
          | some ccr =>
            dsimp only at h
            exact ih ccr.cnameTarget st3 hP3 out h
          | none =>
            dsimp only at h
            unfold finishAsm at h
            rw [if_neg Bool.false_ne_true] at h
            by_cases hrb : (pc.rcvBufSize != 0) = true
            · rw [if_pos hrb] at h
              cases hop : putWithLimit lim st3 .opt 0 11 with
              | none =>
                rw [hop] at h
                dsimp only at h
                subst h
                refine ⟨fun st1 h1 => (by cases h1), fun stf h1 => ?_⟩
                injection h1 with h1
                rw [← h1]; exact hP3
              | some st4 =>
                rw [hop] at h
                dsimp only at h
                subst h
                refine ⟨fun st1 h1 => ?_, fun stf h1 => (by cases h1)⟩
                injection h1 with h1
                rw [← h1]; exact hopt st3 st4 hop hP3
            · rw [if_neg hrb] at h
              subst h
              refine ⟨fun st1 h1 => ?_, fun stf h1 => (by cases h1)⟩
              injection h1 with h1
              rw [← h1]; exact hP3

/-- A chase started with `first = true` that completes with an initialized
message (`.ok` or `.overflowAt`) identifies the first answering record of
the first scanned group and carries any property established by the
first-match block on it. -/
theorem chaseLoop_true_out (lim : Option Nat) (pc : Client) (now tps : Int)
    (cache : Cache) (P : CacheRecord → AsmState → Prop)
    (hre : ∀ cr0 st cr st1, recordEmit lim pc now tps st cr = some st1 → P cr0 st → P cr0 st1)
    (hsoa : ∀ cr0 st s st1,
        putWithLimit lim st (.soaRec s) (s.rroriginalttl : Int) s.size = some st1
        → P cr0 st → P cr0 st1)
    (hopt : ∀ cr0 st st1, putWithLimit lim st .opt 0 11 = some st1 → P cr0 st → P cr0 st1)
    (hok : ∀ cr st1, firstMatchInit lim pc cr = .ok st1 → P cr st1)
    (hof : ∀ cr stf, firstMatchInit lim pc cr = .overflowAt stf → P cr stf) :
    ∀ (fuel : Nat) (nm : Name) (st : AsmState) (out : AsmOut),
      chaseLoop lim pc now tps cache fuel nm st true = out →
      (∀ st1, out = .ok st1 →
          ∃ recs cr0, cacheLookup cache nm = some recs
            ∧ List.find? (fun c => c.answersQuestion) recs = some cr0 ∧ P cr0 st1)
      ∧ (∀ stf, out = .overflowAt stf →
          ∃ recs cr0, cacheLookup cache nm = some recs
            ∧ List.find? (fun c => c.answersQuestion) recs = some cr0 ∧ P cr0 stf) := by
  intro fuel nm st out h
  cases fuel with
  | zero =>
    simp only [chaseLoop] at h
    subst h
    exact ⟨fun st1 h1 => (by cases h1), fun stf h1 => (by cases h1)⟩
  | succ fuel =>
    simp only [chaseLoop] at h
    cases hlook : cacheLookup cache nm with
    | none =>
      rw [hlook] at h
      subst h
      exact ⟨fun st1 h1 => (by cases h1), fun stf h1 => (by cases h1)⟩
    | some recs =>
      rw [hlook] at h
      dsimp only at h
      cases hsc : scanRecords lim pc now tps recs st true none none with
      | qFail =>
        rw [hsc] at h
        subst h
        exact ⟨fun st1 h1 => (by cases h1), fun stf h1 => (by cases h1)⟩
      | overflowAt stf2 =>
        rw [hsc] at h
        subst h
        obtain ⟨cr0, hfind, hPf⟩ :=
          (scanRecords_true_out lim pc now tps P hre hok hof recs st none none).2 stf2 hsc
        refine ⟨fun st1 h1 => (by cases h1), fun stf h1 => ?_⟩
        injection h1 with h1
        exact ⟨recs, cr0, rfl, hfind, h1 ▸ hPf⟩
      | done st2 f2 s2 c2 =>
        rw [hsc] at h
        dsimp only at h
        rcases (scanRecords_true_out lim pc now tps P hre hok hof recs st none none).1
            st2 f2 s2 c2 hsc with ⟨hf2, hst2, hs2, hc2, _⟩ | ⟨hf2, cr0, hfind, hP2⟩
        · -- no record matched: the iteration ends in .noRecord
          subst hf2 hs2 hc2
          unfold soaEmit at h
          dsimp only at h
          unfold finishAsm at h
          rw [if_pos rfl] at h
          subst h
          exact ⟨fun st1 h1 => (by cases h1), fun stf h1 => (by cases h1)⟩
        · subst hf2
          cases hse : soaEmit lim st2 s2 with
          | none =>
            rw [hse] at h
            dsimp only at h
            subst h
            refine ⟨fun st1 h1 => (by cases h1), fun stf h1 => ?_⟩
            injection h1 with h1
            exact ⟨recs, cr0, rfl, hfind, h1 ▸ hP2⟩
          | some st3 =>
            rw [hse] at h
            dsimp only at h
            have hP3 : P cr0 st3 :=
              soaEmit_pres lim (P cr0) (fun s s' s1 hh hp => hsoa cr0 s s' s1 hh hp)
                st2 s2 st3 hse hP2
            cases c2 with
            | some ccr =>
              dsimp only at h
              have hfalse := chaseLoop_false_pres lim pc now tps cache (P cr0)
                (fun s c s1 hh hp => hre cr0 s c s1 hh hp)
                (fun s s' s1 hh hp => hsoa cr0 s s' s1 hh hp)
                (fun s s1 hh hp => hopt cr0 s s1 hh hp)
                fuel ccr.cnameTarget st3 hP3 out h
              refine ⟨fun st1 h1 => ⟨recs, cr0, rfl, hfind, hfalse.1 st1 h1⟩,
                fun stf h1 => ⟨recs, cr0, rfl, hfind, hfalse.2 stf h1⟩⟩
            | none =>
              dsimp only at h
              unfold finishAsm at h
              rw [if_neg Bool.false_ne_true] at h
              by_cases hrb : (pc.rcvBufSize != 0) = true
              · rw [if_pos hrb] at h
                cases hop : putWithLimit lim st3 .opt 0 11 with
                | none =>
                  rw [hop] at h
                  dsimp only at h
                  subst h
                  refine ⟨fun st1 h1 => (by cases h1), fun stf h1 => ?_⟩
                  injection h1 with h1
                  exact ⟨recs, cr0, rfl, hfind, h1 ▸ hP3⟩
                | some st4 =>
                  rw [hop] at h
                  dsimp only at h
                  subst h
                  refine ⟨fun st1 h1 => ?_, fun stf h1 => (by cases h1)⟩
                  injection h1 with h1
                  exact ⟨recs, cr0, rfl, hfind,
                    h1 ▸ hopt cr0 st3 st4 hop hP3⟩
              · rw [if_neg hrb] at h
                subst h
                refine ⟨fun st1 h1 => ?_, fun stf h1 => (by cases h1)⟩
                injection h1 with h1
                exact ⟨recs, cr0, rfl, hfind, h1 ▸ hP3⟩

/-- The header flags of any initialized assembly result are exactly
`SetResponseFlags` of the first answering cache record's `responseFlags`. -/
theorem addResourceRecords_flags (pc : Client) (now tps : Int) (cache : Cache) (fuel : Nat)
    (recs : List CacheRecord) (cr0 : CacheRecord)
    (hlook : cacheLookup cache (workingName pc) = some recs)
    (hfind : List.find? (fun c => c.answersQuestion) recs = some cr0) :
    (∀ st, addResourceRecords pc now tps cache fuel = .ok st →
        st.flags = setResponseFlags pc cr0.responseFlags)
    ∧ (∀ st, addResourceRecords pc now tps cache fuel = .overflowAt st →
        st.flags = setResponseFlags pc cr0.responseFlags) := by
  have main := chaseLoop_true_out (some (computeLimit pc)) pc now tps cache
    (fun cr st => st.flags = setResponseFlags pc cr.responseFlags)
    (fun cr0 st cr st1 h hp => (recordEmit_flags h).trans hp)
    (fun cr0 st s st1 h hp => (putWithLimit_flags h).trans hp)
    (fun cr0 st st1 h hp => (putWithLimit_flags h).trans hp)
    (fun cr st1 h => firstMatchInit_ok_flags h)
    (fun cr stf h => firstMatchInit_overflow_flags h)
    fuel (workingName pc) initAsmState
    (addResourceRecords pc now tps cache fuel) rfl
  constructor
  · intro st h
    obtain ⟨recs1, cr1, hl1, hf1, hp1⟩ := main.1 st h
    rw [hlook] at hl1
    injection hl1 with hl1
    subst hl1
    rw [hfind] at hf1
    injection hf1 with hf1
    subst hf1
    exact hp1
  · intro st h
    obtain ⟨recs1, cr1, hl1, hf1, hp1⟩ := main.2 st h
    rw [hlook] at hl1
    injection hl1 with hl1
    subst hl1
    rw [hfind] at hf1
    injection hf1 with hf1
    subst hf1
    exact hp1

/-- Bit-level description of `SetResponseFlags`: the RD bit (bit 0 of byte
0) and the CD bit (bit 4 of byte 1) mirror the request flags; every other
bit of both bytes is taken from the given response flags unchanged. -/
theorem setResponseFlags_bits (pc : Client) (f : Flags) :
    ((setResponseFlags pc f).b0.testBit 0 = pc.requestFlags.b0.testBit 0)
    ∧ (∀ i, i < 8 → i ≠ 0 → (setResponseFlags pc f).b0.testBit i = f.b0.testBit i)
    ∧ ((setResponseFlags pc f).b1.testBit 4 = pc.requestFlags.b1.testBit 4)
    ∧ (∀ i, i < 8 → i ≠ 4 → (setResponseFlags pc f).b1.testBit i = f.b1.testBit i) := by
  have hbit0 : ∀ x : Nat, ((x &&& kDNSFlag0_RD != 0) = true ↔ x.testBit 0 = true) := by
    intro x
    simp only [kDNSFlag0_RD, Nat.and_one_is_mod, Nat.testBit_zero, bne_iff_ne, ne_eq,
      decide_eq_true_eq]
    omega
  have hbit4 : ∀ x : Nat, ((x &&& kDNSFlag1_CD != 0) = true ↔ x.testBit 4 = true) := by
    intro x
    have h16 : (kDNSFlag1_CD : Nat) = 2 ^ 4 := by norm_num [kDNSFlag1_CD]
    rw [h16, Nat.and_two_pow]
    cases hx : x.testBit 4 <;> simp [hx]
  refine ⟨?_, ?_, ?_, ?_⟩
  · unfold setResponseFlags
    dsimp only
    by_cases h0 : (pc.requestFlags.b0 &&& kDNSFlag0_RD != 0) = true
    · rw [if_pos h0, Nat.testBit_lor]
      have := (hbit0 pc.requestFlags.b0).mp h0
      rw [this]
      simp [kDNSFlag0_RD]
    · rw [if_neg h0, Nat.testBit_land]
      have hx : pc.requestFlags.b0.testBit 0 = false := by
        cases hb : pc.requestFlags.b0.testBit 0
        · rfl
        · exact absurd ((hbit0 pc.requestFlags.b0).mpr hb) h0
      rw [hx]
      simp [show Nat.testBit 0xFE 0 = false from by decide]
  · intro i hi hne
    unfold setResponseFlags
    dsimp only
    by_cases h0 : (pc.requestFlags.b0 &&& kDNSFlag0_RD != 0) = true
    · rw [if_pos h0, Nat.testBit_lor]
      interval_cases i <;> simp_all <;> simp [kDNSFlag0_RD, Nat.testBit_to_div_mod]
    · rw [if_neg h0, Nat.testBit_land]
      interval_cases i <;> simp_all <;>
        simp [show (0xFE : Nat) = 254 from rfl, Nat.testBit_to_div_mod]
  · unfold setResponseFlags
    dsimp only
    by_cases h1 : (pc.requestFlags.b1 &&& kDNSFlag1_CD != 0) = true
    · rw [if_pos h1, Nat.testBit_lor]
      have := (hbit4 pc.requestFlags.b1).mp h1
      rw [this]
      simp [show Nat.testBit kDNSFlag1_CD 4 = true from by decide]
    · rw [if_neg h1, Nat.testBit_land]
      have hx : pc.requestFlags.b1.testBit 4 = false := by
        cases hb : pc.requestFlags.b1.testBit 4
        · rfl
        · exact absurd ((hbit4 pc.requestFlags.b1).mpr hb) h1
      rw [hx]
      simp [show Nat.testBit 0xEF 4 = false from by decide]
  · intro i hi hne
    unfold setResponseFlags
    dsimp only
    by_cases h1 : (pc.requestFlags.b1 &&& kDNSFlag1_CD != 0) = true
    · rw [if_pos h1, Nat.testBit_lor]
      interval_cases i <;> simp_all <;> simp [kDNSFlag1_CD, Nat.testBit_to_div_mod]
    · rw [if_neg h1, Nat.testBit_land]
      interval_cases i <;> simp_all <;>
        simp [show (0xEF : Nat) = 239 from rfl, Nat.testBit_to_div_mod]

/-- C5: for every assembled response, the outgoing response-flags word
equals the first matching cache record's `responseFlags` with exactly two
modifications — the RD bit copied from the client's request byte 0 and the
CD bit copied from the client's request byte 1; all other bits of both
flag bytes (AA, TC, RA, AD, the opcode bits and the rcode) come from the
cache record unchanged.  The statement covers both completed assemblies
(`.ok`) and overflows, whose TC bit is set only afterwards by the
truncation logic in `ProxyClientCallback`. -/
theorem c5_response_flags_mirroring (pc : Client) (now tps : Int) (cache : Cache)
    (fuel : Nat) (recs : List CacheRecord) (cr0 : CacheRecord) (st : AsmState)
    (hlook : cacheLookup cache (workingName pc) = some recs)
    (hfind : List.find? (fun c => c.answersQuestion) recs = some cr0)
    (hres : addResourceRecords pc now tps cache fuel = .ok st
        ∨ addResourceRecords pc now tps cache fuel = .overflowAt st) :
    (st.flags.b0.testBit 0 = pc.requestFlags.b0.testBit 0)
    ∧ (∀ i, i < 8 → i ≠ 0 → st.flags.b0.testBit i = cr0.responseFlags.b0.testBit i)
    ∧ (st.flags.b1.testBit 4 = pc.requestFlags.b1.testBit 4)
    ∧ (∀ i, i < 8 → i ≠ 4 → st.flags.b1.testBit i = cr0.responseFlags.b1.testBit i) := by
  have hfl : st.flags = setResponseFlags pc cr0.responseFlags := by
    rcases hres with h | h
    · exact (addResourceRecords_flags pc now tps cache fuel recs cr0 hlook hfind).1 st h
    · exact (addResourceRecords_flags pc now tps cache fuel recs cr0 hlook hfind).2 st h
  rw [hfl]
  exact setResponseFlags_bits pc cr0.responseFlags

/-- Witness for C5 at a concrete input: a TCP client with RD set and CD
clear, answered from a record whose cached flags carry QR, AA and rcode 1
with RD clear and CD set; the reply mirrors the client's RD/CD and keeps
the rest. -/
theorem c5_response_flags_mirroring_witness :
    (cacheLookup (oneRecCache (posRec 30 ⟨0x84, 0x31⟩ 100 0 none))
        (workingName (asmClient true 0 ⟨1, 0⟩)) = some [posRec 30 ⟨0x84, 0x31⟩ 100 0 none])
    ∧ (List.find? (fun c => c.answersQuestion) [posRec 30 ⟨0x84, 0x31⟩ 100 0 none]
        = some (posRec 30 ⟨0x84, 0x31⟩ 100 0 none))
    ∧ (addResourceRecords (asmClient true 0 ⟨1, 0⟩) 10 1
        (oneRecCache (posRec 30 ⟨0x84, 0x31⟩ 100 0 none)) 2
        = .ok (asmOkState (asmClient true 0 ⟨1, 0⟩) 10 1
            (oneRecCache (posRec 30 ⟨0x84, 0x31⟩ 100 0 none)) 2))
    ∧ ((asmOkState (asmClient true 0 ⟨1, 0⟩) 10 1
          (oneRecCache (posRec 30 ⟨0x84, 0x31⟩ 100 0 none)) 2).flags.b0.testBit 0
        = (asmClient true 0 ⟨1, 0⟩).requestFlags.b0.testBit 0) :=
  ⟨by decide, by decide, by decide,
    (c5_response_flags_mirroring (asmClient true 0 ⟨1, 0⟩) 10 1
      (oneRecCache (posRec 30 ⟨0x84, 0x31⟩ 100 0 none)) 2
      [posRec 30 ⟨0x84, 0x31⟩ 100 0 none] (posRec 30 ⟨0x84, 0x31⟩ 100 0 none)
      (asmOkState (asmClient true 0 ⟨1, 0⟩) 10 1
        (oneRecCache (posRec 30 ⟨0x84, 0x31⟩ 100 0 none)) 2)
      (by decide) (by decide) (Or.inl (by decide))).1⟩

/-! ## Assembly lemmas: answer-record TTLs (C8) -/

theorem emitPush_items (st : AsmState) (k : EmitKind) (ttl : Int) (size : Nat) :
    (emitPush st k ttl size).items = st.items ++ [⟨k, ttl, size⟩] := rfl

theorem putWithLimit_ttlP {now tps : Int} {lim : Option Nat} {st : AsmState} {k : EmitKind}
    {ttl : Int} {size : Nat} {st1 : AsmState} (h : putWithLimit lim st k ttl size = some st1)
    (hk : ∀ cr, k = EmitKind.answer cr → ttl = adjTTL now tps cr)
    (hP : answerTTLok now tps st) : answerTTLok now tps st1 := by
  rw [putWithLimit_some_eq h]
  intro e he cr hkind
  rw [emitPush_items] at he
  rcases List.mem_append.mp he with he | he
  · exact hP e he cr hkind
  · rw [List.mem_singleton] at he
    subst he
    exact hk cr hkind

theorem recordEmit_ttlP {now tps : Int} {lim : Option Nat} {pc : Client} {st : AsmState}
    {cr : CacheRecord} {st1 : AsmState} (h : recordEmit lim pc now tps st cr = some st1)
    (hP : answerTTLok now tps st) : answerTTLok now tps st1 := by
  rcases recordEmit_cases lim pc now tps st cr with hc | ⟨size, hc⟩
  · rw [hc] at h; injection h with h; rw [← h]; exact hP
  · rw [hc] at h
    refine putWithLimit_ttlP h ?_ hP
    intro cr1 hk
    injection hk with hk
    rw [hk]

theorem initAsm_ttlP (now tps : Int) (F : Flags) :
    answerTTLok now tps { initAsmState with flags := F } := by
  intro e he cr hk
  simp [initAsmState] at he

theorem firstMatchInit_ok_ttlP {now tps : Int} {lim : Option Nat} {pc : Client}
    {cr : CacheRecord} {st1 : AsmState} (h : firstMatchInit lim pc cr = .ok st1) :
    answerTTLok now tps st1 := by
  unfold firstMatchInit at h
  cases hq : putQuestionM { initAsmState with flags := setResponseFlags pc cr.responseFlags }
      pc.questionSize with
  | none => rw [hq] at h; cases h
  | some stq =>
    rw [hq] at h
    dsimp only at h
    have hstq : answerTTLok now tps stq :=
      putWithLimit_ttlP hq (fun cr1 hk => by cases hk) (initAsm_ttlP now tps _)
    by_cases hds : (pc.dns64state == DNS64State.ptrSynthesisSuccess) = true
    · rw [if_pos hds] at h
      cases hc : putWithLimit lim stq .synthCNAME 0 pc.synthCNAMESize with
      | none => rw [hc] at h; cases h
      | some st2 =>
        rw [hc] at h
        cases h
        exact putWithLimit_ttlP hc (fun cr1 hk => by cases hk) hstq
    · rw [if_neg hds] at h
      cases h
      exact hstq

theorem firstMatchInit_overflow_ttlP {now tps : Int} {lim : Option Nat} {pc : Client}
    {cr : CacheRecord} {stf : AsmState} (h : firstMatchInit lim pc cr = .overflowAt stf) :
    answerTTLok now tps stf := by
  unfold firstMatchInit at h
  cases hq : putQuestionM { initAsmState with flags := setResponseFlags pc cr.responseFlags }
      pc.questionSize with
  | none => rw [hq] at h; cases h
  | some stq =>
    rw [hq] at h
    dsimp only at h
    have hstq : answerTTLok now tps stq :=
      putWithLimit_ttlP hq (fun cr1 hk => by cases hk) (initAsm_ttlP now tps _)
    by_cases hds : (pc.dns64state == DNS64State.ptrSynthesisSuccess) = true
    · rw [if_pos hds] at h
      cases hc : putWithLimit lim stq .synthCNAME 0 pc.synthCNAMESize with
      | none => rw [hc] at h; cases h; exact hstq
      | some st2 => rw [hc] at h; cases h
    · rw [if_neg hds] at h; cases h

theorem addResourceRecords_answerTTL (pc : Client) (now tps : Int) (cache : Cache)
    (fuel : Nat) :
    (∀ st, addResourceRecords pc now tps cache fuel = .ok st → answerTTLok now tps st)
    ∧ (∀ st, addResourceRecords pc now tps cache fuel = .overflowAt st
        → answerTTLok now tps st) := by
  have main := chaseLoop_true_out (some (computeLimit pc)) pc now tps cache
    (fun _ st => answerTTLok now tps st)
    (fun cr0 st cr st1 h hp => recordEmit_ttlP h hp)
    (fun cr0 st s st1 h hp => putWithLimit_ttlP h (fun cr1 hk => by cases hk) hp)
    (fun cr0 st st1 h hp => putWithLimit_ttlP h (fun cr1 hk => by cases hk) hp)
    (fun cr st1 h => firstMatchInit_ok_ttlP h)
    (fun cr stf h => firstMatchInit_overflow_ttlP h)
    fuel (workingName pc) initAsmState (addResourceRecords pc now tps cache fuel) rfl
  refine ⟨fun st h => ?_, fun st h => ?_⟩
  · obtain ⟨r, c, _, _, hp⟩ := main.1 st h
    exact hp
  · obtain ⟨r, c, _, _, hp⟩ := main.2 st h
    exact hp

/-- C8 counterexample: the SOA side record (size 20, original TTL 5,
received at resolver time 0) is a positive cache record emitted into the
authority section; at `now = 10` with one tick per second the TTL written
for it is its original TTL 5 (line 400), whereas the claim's formula
`originalTTL - floor((now - timeReceived) / ticks-per-second)` gives
`5 - 10 = -5`.  The answer record in the same reply does get the adjusted
TTL `100 - 10 = 90`. -/
theorem c8_counterexample_soa_ttl_unadjusted :
    (addResourceRecords (asmClient true 0 zeroFlags) 10 1
        (oneRecCache (posRec 30 ⟨0x80, 0⟩ 100 0 (some ⟨20, 5, 0⟩))) 2
      = .ok (asmOkState (asmClient true 0 zeroFlags) 10 1
          (oneRecCache (posRec 30 ⟨0x80, 0⟩ 100 0 (some ⟨20, 5, 0⟩))) 2))
    ∧ ((asmOkState (asmClient true 0 zeroFlags) 10 1
          (oneRecCache (posRec 30 ⟨0x80, 0⟩ 100 0 (some ⟨20, 5, 0⟩))) 2).items
        = [⟨.question, 0, 10⟩,
           ⟨.answer (posRec 30 ⟨0x80, 0⟩ 100 0 (some ⟨20, 5, 0⟩)), 90, 30⟩,
           ⟨.soaRec ⟨20, 5, 0⟩, 5, 20⟩])
    ∧ ((5 : Int) ≠ (5 : Int) - ((10 : Int) - 0).fdiv 1) := by
  refine ⟨by decide, by decide, by decide⟩

/-- C8 (amended): for every positive cache record emitted into the *answer*
section during the cache scan, the TTL written equals the record's original
TTL minus `floor((now - timeReceived) / ticks-per-second)`, in exact integer
arithmetic with no clamping — stated here under the side conditions that
make the C arithmetic coincide with the exact value (time did not run
backwards, the adjustment does not underflow the 32-bit TTL, and the TTL is
a 32-bit value).  The SOA record captured via the side pointer is emitted
into the authority section with its original TTL unadjusted (line 400), so
the claim does not extend to it — see the counterexample. -/
theorem c8_answer_ttl_adjusted (pc : Client) (now tps : Int) (cache : Cache) (fuel : Nat)
    (st : AsmState)
    (hres : addResourceRecords pc now tps cache fuel = .ok st
        ∨ addResourceRecords pc now tps cache fuel = .overflowAt st) :
    ∀ e ∈ st.items, ∀ cr, e.kind = EmitKind.answer cr →
      cr.timeRcvd ≤ now → 0 < tps →
      (now - cr.timeRcvd).tdiv tps ≤ (cr.rroriginalttl : Int) →
      (cr.rroriginalttl : Int) < 2 ^ 32 →
      e.ttl = (cr.rroriginalttl : Int) - (now - cr.timeRcvd).fdiv tps := by
  have httl : answerTTLok now tps st := by
    rcases hres with h | h
    · exact (addResourceRecords_answerTTL pc now tps cache fuel).1 st h
    · exact (addResourceRecords_answerTTL pc now tps cache fuel).2 st h
  intro e he cr hk htime htps hle hlt
  have hval := httl e he cr hk
  have hd0 : (0 : Int) ≤ now - cr.timeRcvd := by omega
  have htd : (now - cr.timeRcvd).tdiv tps = (now - cr.timeRcvd).fdiv tps := by
    rw [Int.tdiv_eq_ediv hd0 (le_of_lt htps), Int.fdiv_eq_ediv _ (le_of_lt htps)]
  have hdiv0 : (0 : Int) ≤ (now - cr.timeRcvd).tdiv tps :=
    Int.tdiv_nonneg hd0 (le_of_lt htps)
  rw [hval]
  unfold adjTTL
  show ((cr.rroriginalttl : Int) - (now - cr.timeRcvd).tdiv tps) % 2 ^ 32
      = (cr.rroriginalttl : Int) - (now - cr.timeRcvd).fdiv tps
  rw [Int.emod_eq_of_lt (by omega) (by omega), htd]

/-- Witness for the amended C8: the answer record of the counterexample run
(original TTL 100, received at 0, `now = 10`, one tick per second) is
written with TTL `100 - 10 = 90`. -/
theorem c8_answer_ttl_adjusted_witness :
    ((⟨.answer (posRec 30 ⟨0x80, 0⟩ 100 0 (some ⟨20, 5, 0⟩)), 90, 30⟩ : Emit)
        ∈ (asmOkState (asmClient true 0 zeroFlags) 10 1
            (oneRecCache (posRec 30 ⟨0x80, 0⟩ 100 0 (some ⟨20, 5, 0⟩))) 2).items)
    ∧ ((90 : Int)
        = ((posRec 30 ⟨0x80, 0⟩ 100 0 (some ⟨20, 5, 0⟩)).rroriginalttl : Int)
          - (10 - (posRec 30 ⟨0x80, 0⟩ 100 0 (some ⟨20, 5, 0⟩)).timeRcvd).fdiv 1) :=
  ⟨by decide,
    c8_answer_ttl_adjusted (asmClient true 0 zeroFlags) 10 1
      (oneRecCache (posRec 30 ⟨0x80, 0⟩ 100 0 (some ⟨20, 5, 0⟩))) 2
      (asmOkState (asmClient true 0 zeroFlags) 10 1
        (oneRecCache (posRec 30 ⟨0x80, 0⟩ 100 0 (some ⟨20, 5, 0⟩))) 2)
      (Or.inl (by decide))
      ⟨.answer (posRec 30 ⟨0x80, 0⟩ 100 0 (some ⟨20, 5, 0⟩)), 90, 30⟩
      (by decide) (posRec 30 ⟨0x80, 0⟩ 100 0 (some ⟨20, 5, 0⟩)) rfl
      (by decide) (by decide) (by decide) (by decide)⟩


/-! ## C7: the cache holds no record answering the question -/

/-- A scan over a record group none of whose records answers the question
changes nothing: no first-match block runs, no record is emitted, and no
SOA or CNAME pointer is captured. -/
theorem scanRecords_no_match (lim : Option Nat) (pc : Client) (now tps : Int) :
    ∀ (recs : List CacheRecord) (st : AsmState) (first : Bool)
      (soa : Option SOARec) (cname : Option CacheRecord),
      (∀ cr ∈ recs, cr.answersQuestion = false) →
      scanRecords lim pc now tps recs st first soa cname = .done st first soa cname := by
  intro recs
  induction recs with
  | nil =>
    intro st first soa cname _
    rfl
  | cons cr rest ih =>
    intro st first soa cname hall
    have hcr : ¬(cr.answersQuestion = true) := by
      rw [hall cr (List.mem_cons_self cr rest)]
      exact Bool.false_ne_true
    simp only [scanRecords]
    rw [if_neg hcr]
    exact ih st first soa cname (fun c hc => hall c (List.mem_cons_of_mem cr hc))

/-- When the working name has no cache group, or its group holds no record
answering the question, `AddResourceRecords` reports
`mStatus_NoSuchRecord` (lines 269-274 and 415-417). -/
theorem addResourceRecords_noRecord (pc : Client) (now tps : Int) (cache : Cache) (fuel : Nat)
    (hmatch : cacheLookup cache (workingName pc) = none
      ∨ ∃ recs, cacheLookup cache (workingName pc) = some recs
          ∧ ∀ cr ∈ recs, cr.answersQuestion = false) :
    addResourceRecords pc now tps cache (fuel + 1) = .noRecord := by
  show chaseLoop (some (computeLimit pc)) pc now tps cache (fuel + 1)
      (workingName pc) initAsmState true = .noRecord
  rcases hmatch with h | ⟨recs, h, hall⟩
  · simp only [chaseLoop]
    rw [h]
  · simp only [chaseLoop]
    rw [h]
    dsimp only
    rw [scanRecords_no_match (some (computeLimit pc)) pc now tps recs initAsmState true
      none none hall]
    rfl

/-- C7: Whenever the cache holds no record answering the client's live
question (no group for the working name, or a group with no answering
record), the assembler returns the `mStatus_NoSuchRecord` error and the
callback sends a reply carrying only the question section, whose flags are
ServFail unless the resolver's response-flags word on the question is
non-zero, in which case that word is used instead (dnsproxy.c lines
415-417 and 524-539).  The hypotheses place the callback on the plain
answer path: an add event, no DNS64 AAAA retry or PTR-synthesis state, and
an answer that passes the qtype gate. -/
theorem c7_servfail_on_no_answering_record (cfg : ProxyConfig) (pc : Client) (cache : Cache)
    (a : AnswerRec) (now tps : Int) (fuel : Nat)
    (hstate : pc.dns64state = DNS64State.initial)
    (hnr : dns64RestartCond cfg pc a = false)
    (hgate : a.negative = true ∨ a.rrtype = pc.q.qtype)
    (hq : pc.questionSize ≤ AbsoluteMaxDNSMessageData)
    (hmatch : cacheLookup cache (workingName pc) = none
      ∨ ∃ recs, cacheLookup cache (workingName pc) = some recs
          ∧ ∀ cr ∈ recs, cr.answersQuestion = false) :
    addResourceRecords pc now tps cache (fuel + 1) = .noRecord
    ∧ proxyClientCallback cfg pc cache a true now tps (fuel + 1)
        = .sendMsg (questionOnlyMsg pc (noRecordReplyFlags pc)) pc := by
  have hnorec := addResourceRecords_noRecord pc now tps cache fuel hmatch
  refine ⟨hnorec, ?_⟩
  have hpt : dns64PtrTransition cfg pc a = pc := by
    unfold dns64PtrTransition
    have hc : ¬((cfg.dns64Enabled && pc.dns64state == DNS64State.ptrSynthesisTrying)
        = true) := by
      rw [hstate]
      simp
      intro _
      rfl
    rw [if_neg hc]
  have hadd : ¬((!(true : Bool)) = true) := by decide
  have hnrp : ¬(dns64RestartCond cfg pc a = true) := by
    rw [hnr]
    exact Bool.false_ne_true
  have hnx : ¬((pc.dns64state == DNS64State.ptrSynthesisNXDomain) = true) := by
    rw [hstate]
    decide
  have hgate' : ¬((!a.negative && a.rrtype != pc.q.qtype) = true) := by
    rcases hgate with h | h
    · simp [h]
    · simp [h]
  unfold proxyClientCallback
  rw [if_neg hadd, if_neg hnrp, hpt]
  dsimp only
  rw [if_neg hnx, if_neg hgate', hnorec]
  dsimp only
  rw [if_pos hq]

theorem c7_servfail_on_no_answering_record_witness :
    addResourceRecords (asmClient false 0 zeroFlags) 0 1 [] 1 = AsmOut.noRecord
    ∧ proxyClientCallback ⟨[1, 0, 0, 0, 0], 2, false, false, 0, []⟩
        (asmClient false 0 zeroFlags) [] ⟨true, 28, 1⟩ true 0 1 1
        = CBOut.sendMsg
            (questionOnlyMsg (asmClient false 0 zeroFlags)
              (noRecordReplyFlags (asmClient false 0 zeroFlags)))
            (asmClient false 0 zeroFlags) :=
  c7_servfail_on_no_answering_record ⟨[1, 0, 0, 0, 0], 2, false, false, 0, []⟩
    (asmClient false 0 zeroFlags) [] ⟨true, 28, 1⟩ 0 1 0
    rfl rfl (Or.inl rfl) (by decide) (Or.inl rfl)

/-! ## C3: UDP truncation at the safe cursor -/

theorem sumSizes_append (l : List Emit) (e : Emit) :
    sumSizes (l ++ [e]) = sumSizes l + e.size := by
  simp [sumSizes]

/-- A successful bounded emit preserves the builder invariant and leaves the
cursor within the limit. -/
theorem emitPush_inv (L : Nat) (st : AsmState) (k : EmitKind) (ttl : Int) (size : Nat)
    (hinv : asmInv L st) (hle : st.used + size ≤ L) :
    asmInv L (emitPush st k ttl size) ∧ (emitPush st k ttl size).used ≤ L := by
  obtain ⟨hused, hsafe, hbound⟩ := hinv
  have hitems : (emitPush st k ttl size).items = st.items ++ [⟨k, ttl, size⟩] := rfl
  have husede : (emitPush st k ttl size).used = st.used + size := rfl
  have hsafee : (emitPush st k ttl size).safe
      = if updatesSafe k then st.used + size else st.safe := rfl
  refine ⟨⟨?_, ?_, ?_⟩, ?_⟩
  · rw [husede, hitems, sumSizes_append, hused]
  · rw [hsafee]
    by_cases hu : updatesSafe k = true
    · rw [if_pos hu]; exact hle
    · rw [if_neg hu]; exact hsafe
  · unfold safeAtBoundary
    rw [hitems, hsafee]
    by_cases hu : updatesSafe k = true
    · rw [if_pos hu]
      refine ⟨st.items ++ [⟨k, ttl, size⟩], List.prefix_refl _, ?_, ?_⟩
      · rw [sumSizes_append, hused]
      · exact Or.inr ⟨⟨k, ttl, size⟩, List.getLast?_concat _, hu⟩
    · rw [if_neg hu]
      obtain ⟨pre, hpre, hsum, hlast⟩ := hbound
      exact ⟨pre, hpre.trans (List.prefix_append _ _), hsum, hlast⟩
  · rw [husede]; exact hle

theorem putWithLimit_someL_inv {L : Nat} {st : AsmState} {k : EmitKind} {ttl : Int}
    {size : Nat} {st1 : AsmState} (h : putWithLimit (some L) st k ttl size = some st1)
    (hinv : asmInv L st) : asmInv L st1 ∧ st1.used ≤ L := by
  rw [putWithLimit_some_eq h]
  exact emitPush_inv L st k ttl size hinv (putWithLimit_some_le h)

theorem putWithLimit_someL_truncInv {pc : Client} {st : AsmState} {k : EmitKind} {ttl : Int}
    {size : Nat} {st1 : AsmState}
    (h : putWithLimit (some (computeLimit pc)) st k ttl size = some st1)
    (hinv : truncInv pc st) : truncInv pc st1 := by
  obtain ⟨hi, hle⟩ := putWithLimit_someL_inv h hinv.1
  exact ⟨hi, Or.inl hle⟩

theorem recordEmit_truncInv {pc : Client} {now tps : Int} {st : AsmState} {cr : CacheRecord}
    {st1 : AsmState} (h : recordEmit (some (computeLimit pc)) pc now tps st cr = some st1)
    (hinv : truncInv pc st) : truncInv pc st1 := by
  rcases recordEmit_cases (some (computeLimit pc)) pc now tps st cr with hc | ⟨size, hc⟩
  · rw [hc] at h; injection h with h; rw [← h]; exact hinv
  · rw [hc] at h; exact putWithLimit_someL_truncInv h hinv

/-- The first-match block establishes the truncation invariant outright: the
fresh message holds the question (cursor at `questionSize`, safe cursor at
the data start) and, under PTR synthesis, a checked synthetic CNAME. -/
theorem firstMatchInit_ok_truncInv {pc : Client} {cr : CacheRecord} {st1 : AsmState}
    (h : firstMatchInit (some (computeLimit pc)) pc cr = .ok st1) : truncInv pc st1 := by
  unfold firstMatchInit at h
  cases hq : putQuestionM { initAsmState with flags := setResponseFlags pc cr.responseFlags }
      pc.questionSize with
  | none => rw [hq] at h; cases h
  | some stq =>
    rw [hq] at h
    dsimp only at h
    have hstq : truncInv pc stq := by
      rw [putWithLimit_some_eq hq]
      refine ⟨⟨?_, Nat.zero_le _, [], List.nil_prefix, rfl, Or.inl rfl⟩, Or.inr ?_⟩
      · show 0 + pc.questionSize = pc.questionSize + 0
        omega
      · exact Nat.zero_add _
    by_cases hds : (pc.dns64state == DNS64State.ptrSynthesisSuccess) = true
    · rw [if_pos hds] at h
      cases hc : putWithLimit (some (computeLimit pc)) stq .synthCNAME 0 pc.synthCNAMESize with
      | none => rw [hc] at h; cases h
      | some st2 =>
        rw [hc] at h
        cases h
        exact putWithLimit_someL_truncInv hc hstq
    · rw [if_neg hds] at h
      cases h
      exact hstq

theorem firstMatchInit_overflow_truncInv {pc : Client} {cr : CacheRecord} {stf : AsmState}
    (h : firstMatchInit (some (computeLimit pc)) pc cr = .overflowAt stf) : truncInv pc stf := by
  unfold firstMatchInit at h
  cases hq : putQuestionM { initAsmState with flags := setResponseFlags pc cr.responseFlags }
      pc.questionSize with
  | none => rw [hq] at h; cases h
  | some stq =>
    rw [hq] at h
    dsimp only at h
    have hstq : truncInv pc stq := by
      rw [putWithLimit_some_eq hq]
      refine ⟨⟨?_, Nat.zero_le _, [], List.nil_prefix, rfl, Or.inl rfl⟩, Or.inr ?_⟩
      · show 0 + pc.questionSize = pc.questionSize + 0
        omega
      · exact Nat.zero_add _
    by_cases hds : (pc.dns64state == DNS64State.ptrSynthesisSuccess) = true
    · rw [if_pos hds] at h
      cases hc : putWithLimit (some (computeLimit pc)) stq .synthCNAME 0 pc.synthCNAMESize with
      | none => rw [hc] at h; cases h; exact hstq
      | some st2 => rw [hc] at h; cases h
    · rw [if_neg hds] at h; cases h

/-- Both initialized outcomes of the bounded assembly satisfy the
truncation invariant. -/
theorem addResourceRecords_truncInv (pc : Client) (now tps : Int) (cache : Cache)
    (fuel : Nat) :
    (∀ st, addResourceRecords pc now tps cache fuel = .ok st → truncInv pc st)
    ∧ (∀ st, addResourceRecords pc now tps cache fuel = .overflowAt st → truncInv pc st) := by
  have main := chaseLoop_true_out (some (computeLimit pc)) pc now tps cache
    (fun _ st => truncInv pc st)
    (fun cr0 st cr st1 h hp => recordEmit_truncInv h hp)
    (fun cr0 st s st1 h hp => putWithLimit_someL_truncInv h hp)
    (fun cr0 st st1 h hp => putWithLimit_someL_truncInv h hp)
    (fun cr st1 h => firstMatchInit_ok_truncInv h)
    (fun cr stf h => firstMatchInit_overflow_truncInv h)
    fuel (workingName pc) initAsmState (addResourceRecords pc now tps cache fuel) rfl
  constructor
  · intro st h
    obtain ⟨_, _, _, _, hp⟩ := main.1 st h
    exact hp
  · intro st h
    obtain ⟨_, _, _, _, hp⟩ := main.2 st h
    exact hp

/-- A successful bounded emit makes the identical unbounded emit. -/
theorem putWithLimit_sim {L : Nat} {st : AsmState} {k : EmitKind} {ttl : Int} {size : Nat}
    {st1 : AsmState} (h : putWithLimit (some L) st k ttl size = some st1) :
    putWithLimit none st k ttl size = some st1 := by
  rw [putWithLimit_some_eq h]
  rfl

theorem recordEmit_sim {L : Nat} {pc : Client} {now tps : Int} {st : AsmState}
    {cr : CacheRecord} {st1 : AsmState}
    (h : recordEmit (some L) pc now tps st cr = some st1) :
    recordEmit none pc now tps st cr = some st1 := by
  unfold recordEmit at h ⊢
  by_cases hneg : cr.negative = true
  · rw [if_pos hneg] at h ⊢; exact h
  · rw [if_neg hneg] at h ⊢
    by_cases hsyn : (pc.dns64state == DNS64State.aaaaSynthesis && cr.rrtype == kDNSType_A)
        = true
    · rw [if_pos hsyn] at h ⊢
      by_cases hok : cr.synthOK = true
      · rw [if_pos hok] at h ⊢; exact putWithLimit_sim h
      · rw [if_neg hok] at h ⊢; exact h
    · rw [if_neg hsyn] at h ⊢; exact putWithLimit_sim h

theorem soaEmit_sim {L : Nat} {st : AsmState} {soa : Option SOARec} {st1 : AsmState}
    (h : soaEmit (some L) st soa = some st1) : soaEmit none st soa = some st1 := by
  cases soa with
  | none => simp only [soaEmit] at h ⊢; exact h
  | some s => exact putWithLimit_sim h

theorem firstMatchInit_sim_ok {L : Nat} {pc : Client} {cr : CacheRecord} {st1 : AsmState}
    (h : firstMatchInit (some L) pc cr = .ok st1) : firstMatchInit none pc cr = .ok st1 := by
  unfold firstMatchInit at h ⊢
  cases hq : putQuestionM { initAsmState with flags := setResponseFlags pc cr.responseFlags }
      pc.questionSize with
  | none => rw [hq] at h; cases h
  | some stq =>
    rw [hq] at h
    dsimp only at h ⊢
    by_cases hds : (pc.dns64state == DNS64State.ptrSynthesisSuccess) = true
    · rw [if_pos hds] at h ⊢
      cases hc : putWithLimit (some L) stq .synthCNAME 0 pc.synthCNAMESize with
      | none => rw [hc] at h; cases h
      | some st2 =>
        rw [hc] at h
        dsimp only at h
        rw [putWithLimit_sim hc]
        dsimp only
        exact h
    · rw [if_neg hds] at h ⊢
      exact h

theorem firstMatchInit_sim_qFail {L : Nat} {pc : Client} {cr : CacheRecord}
    (h : firstMatchInit (some L) pc cr = .qFail) : firstMatchInit none pc cr = .qFail := by
  unfold firstMatchInit at h ⊢
  cases hq : putQuestionM { initAsmState with flags := setResponseFlags pc cr.responseFlags }
      pc.questionSize with
  | none => rfl
  | some stq =>
    rw [hq] at h
    dsimp only at h
    by_cases hds : (pc.dns64state == DNS64State.ptrSynthesisSuccess) = true
    · rw [if_pos hds] at h
      cases hc : putWithLimit (some L) stq .synthCNAME 0 pc.synthCNAMESize with
      | none => rw [hc] at h; cases h
      | some st2 => rw [hc] at h; dsimp only at h; cases h
    · rw [if_neg hds] at h
      cases h

theorem finishAsm_sim {L : Nat} {pc : Client} {st : AsmState} {first : Bool} {out : AsmOut}
    (h : finishAsm (some L) pc st first = out) :
    (∃ stf, out = .overflowAt stf) ∨ finishAsm none pc st first = out := by
  unfold finishAsm at h ⊢
  by_cases hf : first = true
  · rw [if_pos hf] at h ⊢
    exact Or.inr h
  · rw [if_neg hf] at h ⊢
    by_cases hrb : (pc.rcvBufSize != 0) = true
    · rw [if_pos hrb] at h ⊢
      cases hop : putWithLimit (some L) st .opt 0 11 with
      | none =>
        rw [hop] at h
        dsimp only at h
        exact Or.inl ⟨st, h.symm⟩
      | some st3 =>
        rw [hop] at h
        dsimp only at h
        rw [putWithLimit_sim hop]
        dsimp only
        exact Or.inr h
    · rw [if_neg hrb] at h ⊢
      exact Or.inr h

/-- Simulation of the bounded scan by the unbounded one: any `.done` or
`.qFail` outcome of a scan under a limit is also the outcome without the
limit (the two runs make identical steps until a bounded put fails). -/
theorem scanRecords_sim (L : Nat) (pc : Client) (now tps : Int) :
    ∀ (recs : List CacheRecord) (st : AsmState) (first : Bool)
      (soa : Option SOARec) (cname : Option CacheRecord),
      (∀ st1 f1 s1 c1,
          scanRecords (some L) pc now tps recs st first soa cname = .done st1 f1 s1 c1
          → scanRecords none pc now tps recs st first soa cname = .done st1 f1 s1 c1)
      ∧ (scanRecords (some L) pc now tps recs st first soa cname = .qFail
          → scanRecords none pc now tps recs st first soa cname = .qFail) := by
  intro recs
  induction recs with
  | nil =>
    intro st first soa cname
    refine ⟨?_, ?_⟩
    · intro st1 f1 s1 c1 h
      simp only [scanRecords] at h ⊢
      exact h
    · intro h
      simp only [scanRecords] at h
      cases h
  | cons cr rest ih =>
    intro st first soa cname
    by_cases hans : cr.answersQuestion = true
    · cases first with
      | true =>
        refine ⟨?_, ?_⟩
        · intro st1 f1 s1 c1 h
          simp only [scanRecords] at h ⊢
          rw [if_pos hans, if_true] at h ⊢
          cases hfi : firstMatchInit (some L) pc cr with
          | qFail => rw [hfi] at h; cases h
          | overflowAt stf2 => rw [hfi] at h; cases h
          | ok sti =>
            rw [hfi] at h
            dsimp only at h
            rw [firstMatchInit_sim_ok hfi]
            dsimp only
            cases hre1 : recordEmit (some L) pc now tps sti cr with
            | none => rw [hre1] at h; cases h
            | some st2 =>
              rw [hre1] at h
              rw [recordEmit_sim hre1]
              dsimp only
              exact (ih st2 false _ _).1 st1 f1 s1 c1 h
        · intro h
          simp only [scanRecords] at h ⊢
          rw [if_pos hans, if_true] at h ⊢
          cases hfi : firstMatchInit (some L) pc cr with
          | qFail =>
            rw [hfi] at h
            rw [firstMatchInit_sim_qFail hfi]
          | overflowAt stf2 => rw [hfi] at h; cases h
          | ok sti =>
            rw [hfi] at h
            dsimp only at h
            rw [firstMatchInit_sim_ok hfi]
            dsimp only
            cases hre1 : recordEmit (some L) pc now tps sti cr with
            | none => rw [hre1] at h; cases h
            | some st2 =>
              rw [hre1] at h
              rw [recordEmit_sim hre1]
              dsimp only
              exact (ih st2 false _ _).2 h
      | false =>
        refine ⟨?_, ?_⟩
        · intro st1 f1 s1 c1 h
          simp only [scanRecords] at h ⊢
          rw [if_pos hans, if_neg Bool.false_ne_true] at h ⊢
          cases hre1 : recordEmit (some L) pc now tps st cr with
          | none => rw [hre1] at h; cases h
          | some st2 =>
            rw [hre1] at h
            rw [recordEmit_sim hre1]
            dsimp only
            exact (ih st2 false _ _).1 st1 f1 s1 c1 h
        · intro h
          simp only [scanRecords] at h ⊢
          rw [if_pos hans, if_neg Bool.false_ne_true] at h ⊢
          cases hre1 : recordEmit (some L) pc now tps st cr with
          | none => rw [hre1] at h; cases h
          | some st2 =>
            rw [hre1] at h
            rw [recordEmit_sim hre1]
            dsimp only
            exact (ih st2 false _ _).2 h
    · refine ⟨?_, ?_⟩
      · intro st1 f1 s1 c1 h
        simp only [scanRecords] at h ⊢
        rw [if_neg hans] at h ⊢
        exact (ih st first soa cname).1 st1 f1 s1 c1 h
      · intro h
        simp only [scanRecords] at h ⊢
        rw [if_neg hans] at h ⊢
        exact (ih st first soa cname).2 h

/-- Simulation of the bounded chase by the unbounded one: every bounded
outcome other than an overflow is also the unbounded outcome. -/
theorem chaseLoop_sim (L : Nat) (pc : Client) (now tps : Int) (cache : Cache) :
    ∀ (fuel : Nat) (nm : Name) (st : AsmState) (first : Bool) (out : AsmOut),
      chaseLoop (some L) pc now tps cache fuel nm st first = out →
      (∃ stf, out = .overflowAt stf)
      ∨ chaseLoop none pc now tps cache fuel nm st first = out := by
  intro fuel
  induction fuel with
  | zero =>
    intro nm st first out h
    simp only [chaseLoop] at h
    exact Or.inr h
  | succ fuel ih =>
    intro nm st first out h
    simp only [chaseLoop] at h
    cases hlk : cacheLookup cache nm with
    | none =>
      rw [hlk] at h
      dsimp only at h
      right
      simp only [chaseLoop]
      rw [hlk]
      exact h
    | some recs =>
      rw [hlk] at h
      dsimp only at h
      cases hsc : scanRecords (some L) pc now tps recs st first none none with
      | qFail =>
        rw [hsc] at h
        dsimp only at h
        right
        simp only [chaseLoop]
        rw [hlk]
        dsimp only
        rw [(scanRecords_sim L pc now tps recs st first none none).2 hsc]
        dsimp only
        exact h
      | overflowAt stf2 =>
        rw [hsc] at h
        dsimp only at h
        exact Or.inl ⟨stf2, h.symm⟩
      | done st1 f1 s1 c1 =>
        rw [hsc] at h
        dsimp only at h
        have hscn := (scanRecords_sim L pc now tps recs st first none none).1 st1 f1 s1 c1 hsc
        cases hse : soaEmit (some L) st1 s1 with
        | none =>
          rw [hse] at h
          dsimp only at h
          exact Or.inl ⟨st1, h.symm⟩
        | some st2 =>
          rw [hse] at h
          dsimp only at h
          have hsen : soaEmit none st1 s1 = some st2 := soaEmit_sim hse
          cases c1 with
          | some ccr =>
            dsimp only at h
            rcases ih ccr.cnameTarget st2 f1 out h with hl | hr
            · exact Or.inl hl
            · right
              simp only [chaseLoop]
              rw [hlk]
              dsimp only
              rw [hscn]
              dsimp only
              rw [hsen]
              dsimp only
              exact hr
          | none =>
            dsimp only at h
            rcases finishAsm_sim h with hl | hr
            · exact Or.inl hl
            · right
              simp only [chaseLoop]
              rw [hlk]
              dsimp only
              rw [hscn]
              dsimp only
              rw [hsen]
              dsimp only
              exact hr

/-- C3: For every UDP reply assembled from the cache whose full set of
records would exceed the size bound (512 bytes of payload without EDNS(0),
rcvBufSize clamped to the absolute maximum with EDNS(0)): the assembler
stops with an overflow, and the reply actually sent carries the TC bit on
top of the assembled flags, transmits exactly the emitted elements within
the safe cursor, and its payload length (the safe cursor, where `orig` last
stopped) does not exceed the bound and sits at a record boundary — the
size of a prefix of the emitted elements ending with an answer record or
the SOA.  Hypotheses place the callback on the plain answer path, and
require the question section itself to fit the bound. -/
theorem c3_udp_truncation (cfg : ProxyConfig) (pc : Client) (cache : Cache) (a : AnswerRec)
    (now tps : Int) (fuel : Nat)
    (htcp : pc.tcp = false)
    (hstate : pc.dns64state = DNS64State.initial)
    (hnr : dns64RestartCond cfg pc a = false)
    (hgate : a.negative = true ∨ a.rrtype = pc.q.qtype)
    (hqs : pc.questionSize ≤ computeLimit pc)
    (hex : okExceeds (addResourceRecordsUnbounded pc now tps cache fuel)
        (computeLimit pc) = true) :
    ∃ st, addResourceRecords pc now tps cache fuel = .overflowAt st
      ∧ proxyClientCallback cfg pc cache a true now tps fuel
          = .sendMsg ⟨⟨st.flags.b0 ||| kDNSFlag0_TC, st.flags.b1⟩,
              prefixWithin st.safe st.items, st.safe⟩ pc
      ∧ (st.flags.b0 ||| kDNSFlag0_TC).testBit 1 = true
      ∧ st.safe ≤ computeLimit pc
      ∧ st.used = sumSizes st.items
      ∧ safeAtBoundary st := by
  have hexu : ∃ stu, addResourceRecordsUnbounded pc now tps cache fuel = .ok stu
      ∧ computeLimit pc < stu.used := by
    cases hu : addResourceRecordsUnbounded pc now tps cache fuel with
    | diverge => rw [hu] at hex; simp only [okExceeds] at hex; cases hex
    | noRecord => rw [hu] at hex; simp only [okExceeds] at hex; cases hex
    | qFail => rw [hu] at hex; simp only [okExceeds] at hex; cases hex
    | overflowAt st => rw [hu] at hex; simp only [okExceeds] at hex; cases hex
    | ok stu =>
      rw [hu] at hex
      simp only [okExceeds] at hex
      exact ⟨stu, rfl, of_decide_eq_true hex⟩
  obtain ⟨stu, hu, hlt⟩ := hexu
  rcases chaseLoop_sim (computeLimit pc) pc now tps cache fuel (workingName pc) initAsmState
      true (addResourceRecords pc now tps cache fuel) rfl with ⟨stf, hov⟩ | heqn
  · have hinv := (addResourceRecords_truncInv pc now tps cache fuel).2 stf hov
    obtain ⟨⟨hused, hsafe, hbound⟩, _⟩ := hinv
    refine ⟨stf, hov, ?_, ?_, hsafe, hused, hbound⟩
    · have hpt : dns64PtrTransition cfg pc a = pc := by
        unfold dns64PtrTransition
        have hc : ¬((cfg.dns64Enabled && pc.dns64state == DNS64State.ptrSynthesisTrying)
            = true) := by
          rw [hstate]
          simp
          intro _
          rfl
        rw [if_neg hc]
      have hadd : ¬((!(true : Bool)) = true) := by decide
      have hnrp : ¬(dns64RestartCond cfg pc a = true) := by
        rw [hnr]
        exact Bool.false_ne_true
      have hnx : ¬((pc.dns64state == DNS64State.ptrSynthesisNXDomain) = true) := by
        rw [hstate]
        decide
      have hgate2 : ¬((!a.negative && a.rrtype != pc.q.qtype) = true) := by
        rcases hgate with h | h
        · simp [h]
        · simp [h]
      have htcp2 : (!pc.tcp) = true := by
        rw [htcp]
        rfl
      unfold proxyClientCallback
      rw [if_neg hadd, if_neg hnrp, hpt]
      dsimp only
      rw [if_neg hnx, if_neg hgate2, hov]
      dsimp only
      rw [if_pos htcp2]
    · rw [Nat.testBit_lor]
      have h2 : Nat.testBit kDNSFlag0_TC 1 = true := by decide
      rw [h2, Bool.or_true]
  · exfalso
    have hbok : addResourceRecords pc now tps cache fuel = .ok stu := by
      rw [← heqn]
      exact hu
    have hinv := (addResourceRecords_truncInv pc now tps cache fuel).1 stu hbok
    rcases hinv.2 with hle | heq
    · omega
    · omega

theorem c3_udp_truncation_witness :
    pc3w.tcp = false
    ∧ okExceeds (addResourceRecordsUnbounded pc3w 0 1 cache3w 2) (computeLimit pc3w) = true
    ∧ ∃ st, addResourceRecords pc3w 0 1 cache3w 2 = .overflowAt st
        ∧ proxyClientCallback cfg3w pc3w cache3w ⟨true, 28, 1⟩ true 0 1 2
            = .sendMsg ⟨⟨st.flags.b0 ||| kDNSFlag0_TC, st.flags.b1⟩,
                prefixWithin st.safe st.items, st.safe⟩ pc3w
        ∧ (st.flags.b0 ||| kDNSFlag0_TC).testBit 1 = true
        ∧ st.safe ≤ computeLimit pc3w
        ∧ st.used = sumSizes st.items
        ∧ safeAtBoundary st :=
  ⟨rfl, by decide,
    c3_udp_truncation cfg3w pc3w cache3w ⟨true, 28, 1⟩ 0 1 2
      rfl rfl rfl (Or.inl rfl) (by decide) (by decide)⟩

end DNSProxy
